import Mathlib

/-!
Verification of the CDP tree-acquisition core (session manager, tree fetcher,
tree merger and reference registry) of the Bouno repository, as a shallow
embedding in Lean.  Numbers flowing through the protocol are modelled as
integers (the code only compares and copies them), JavaScript `Map`s as
association lists in insertion order, and JavaScript truthiness explicitly
wherever the source relies on it.
-/

namespace Bouno

/-! ## JavaScript value helpers -/

/-- Model of an untyped JS value as it appears in CDP accessibility
property payloads (`unknown` in the source). -/
inductive JSVal where
  | vNull
  | vBool (b : Bool)
  | vNum (n : Int)
  | vStr (s : String)
deriving DecidableEq, Repr

/-- JS truthiness of a `JSVal` (`Boolean(value)` in the source). -/
def JSVal.truthy : JSVal → Bool
  | .vNull => false
  | .vBool b => b
  | .vNum n => n != 0
  | .vStr s => s != ""

/-- JS truthiness of an optional string (attribute lookups such as
`attributes.href`): `undefined` and the empty string are falsy. -/
def strTruthy : Option String → Bool
  | none => false
  | some s => s != ""

/-- JS `x || d` on an optional string: the default wins when the value is
absent or empty. -/
def jsOrStr (v : Option String) (d : String) : String :=
  match v with
  | none => d
  | some s => if s = "" then d else s

/-- JS number with a not-a-number case; `Number(value)` is modelled on the
integral fragment the code can actually receive from CDP. -/
inductive JSNum where
  | nan
  | int (n : Int)
deriving DecidableEq, Repr

/-- Model of JS `Number(value)` restricted to integral payloads. -/
def jsNumber : JSVal → JSNum
  | .vNull => .int 0
  | .vBool b => .int (if b then 1 else 0)
  | .vNum n => .int n
  | .vStr s =>
    if s = "" then .int 0
    else match s.toInt? with
      | some n => .int n
      | none => .nan

/-- Model of JS `String(value)`. -/
def jsString : JSVal → String
  | .vNull => "null"
  | .vBool b => if b then "true" else "false"
  | .vNum n => toString n
  | .vStr s => s

/-! ## Association lists: the model of JS `Map` (insertion order, unique keys)
and of plain JS objects used as string records -/

/-- JS `Map.get` / object property read. -/
def alGet {κ α : Type} [DecidableEq κ] : List (κ × α) → κ → Option α
  | [], _ => none
  | p :: ps, k => if p.1 = k then some p.2 else alGet ps k

/-- JS `Map.set` / object property write: update in place if the key exists,
otherwise append (JS `Map` keeps the original insertion position). -/
def alSet {κ α : Type} [DecidableEq κ] : List (κ × α) → κ → α → List (κ × α)
  | [], k, v => [(k, v)]
  | p :: ps, k, v => if p.1 = k then (k, v) :: ps else p :: alSet ps k v

/-- JS `Map.delete`. -/
def alErase {κ α : Type} [DecidableEq κ] : List (κ × α) → κ → List (κ × α)
  | [], _ => []
  | p :: ps, k => if p.1 = k then ps else p :: alErase ps k

/-! ## Decimal rendering of naturals

The registry hands out references `ref_1`, `ref_2`, ...; distinctness of
distinct counters' references needs injectivity of `Nat.repr` (which is what
the template literal in the source performs). -/

/-- Decimal digit-character list of a natural, most significant first. -/
def digitsAux (n : Nat) : List Char :=
  if h : n < 10 then [Nat.digitChar n]
  else
    have : n / 10 < n := Nat.div_lt_self (by omega) (by omega)
    digitsAux (n / 10) ++ [Nat.digitChar (n % 10)]

/-! ## Reference registry (module-level state of the tree merger, made
explicit as a state record) -/

/-- Registry state: `backendToRef`, `refToBackend` and `refCounter` from the
source, with the two JS `Map`s as association lists. -/
structure RegState where
  backendToRef : List (Nat × String)
  refToBackend : List (String × Nat)
  refCounter : Nat
deriving DecidableEq, Repr

/-- The reference string allotted at counter value `c`. -/
def refName (c : Nat) : String := "ref_" ++ toString c

/-- `assignRef`: return the existing reference for a backend node id
(JS truthiness on the lookup), otherwise allocate the next sequential one and
record the bidirectional mapping. -/
def assignRef (backendNodeId : Nat) (s : RegState) : String × RegState :=
  match alGet s.backendToRef backendNodeId with
  | some existing =>
    if existing != "" then (existing, s)
    else
      let c := s.refCounter + 1
      (refName c, ⟨alSet s.backendToRef backendNodeId (refName c),
                   alSet s.refToBackend (refName c) backendNodeId, c⟩)
  | none =>
    let c := s.refCounter + 1
    (refName c, ⟨alSet s.backendToRef backendNodeId (refName c),
                 alSet s.refToBackend (refName c) backendNodeId, c⟩)

/-- `getBackendNodeId`: resolve a reference back to its backend node id. -/
def getBackendNodeId (ref : String) (s : RegState) : Option Nat :=
  alGet s.refToBackend ref

/-- `clearRefs`: empty both maps and reset the counter. -/
def clearRefs : RegState := ⟨[], [], 0⟩

/-- `getRefCount`. -/
def getRefCount (s : RegState) : Nat := s.backendToRef.length

/-! ## Shared element types -/

/-- Bounding rectangle (coordinates modelled as integers). -/
structure Bounds where
  x : Int
  y : Int
  width : Int
  height : Int
deriving DecidableEq, Repr

/-- Checked/pressed values: a boolean or the string `mixed`. -/
inductive BoolOrMixed where
  | mixed
  | plain (b : Bool)
deriving DecidableEq, Repr

/-- AX-style state properties; a `none` field models an absent JS object key. -/
structure AXStateProperties where
  focusable : Option Bool := none
  focused : Option Bool := none
  editable : Option Bool := none
  readonly : Option Bool := none
  disabled : Option Bool := none
  checked : Option BoolOrMixed := none
  pressed : Option BoolOrMixed := none
  selected : Option Bool := none
  expanded : Option Bool := none
  required : Option Bool := none
  invalid : Option Bool := none
  valueMin : Option JSNum := none
  valueMax : Option JSNum := none
  valueNow : Option JSNum := none
  valueText : Option String := none
  busy : Option Bool := none
  hidden : Option Bool := none
  modal : Option Bool := none
deriving DecidableEq, Repr

/-- Synthetic sub-control of a composite input. -/
structure CompoundChild where
  role : String
  name : String
  valueNow : Option String := none
deriving DecidableEq, Repr

/-! ## CDP accessibility node model and processing -/

/-- A typed string-valued AX payload (role/name/description). -/
structure AXValueStr where
  type : String
  value : String
deriving DecidableEq, Repr

/-- One entry of a CDP AX node's `properties` array; `value` is the inner
`prop.value?.value` payload. -/
structure CDPAXProperty where
  name : String
  value : JSVal
deriving DecidableEq, Repr

/-- CDP accessibility node (the fields the merger consults). -/
structure CDPAXNode where
  nodeId : String
  ignored : Bool
  role : Option AXValueStr := none
  name : Option AXValueStr := none
  description : Option AXValueStr := none
  properties : List CDPAXProperty := []
  backendDOMNodeId : Option Nat := none
deriving DecidableEq, Repr

/-- Enhanced AX node - processed from CDP format. -/
structure EnhancedAXNode where
  axNodeId : String
  ignored : Bool
  role : String
  name : String
  description : String
  properties : AXStateProperties
deriving DecidableEq, Repr

/-- `extractRole`: role value with `generic` for a missing or empty role. -/
def extractRole (axNode : CDPAXNode) : String :=
  match axNode.role with
  | none => "generic"
  | some r => if r.value = "" then "generic" else r.value

/-- `extractName`: accessible name, empty when missing (the source's
`String(axNode.name.value || '')` is the identity on the remaining cases). -/
def extractName (axNode : CDPAXNode) : String :=
  match axNode.name with
  | none => ""
  | some n => n.value

/-- `extractDescription`. -/
def extractDescription (axNode : CDPAXNode) : String :=
  match axNode.description with
  | none => ""
  | some d => d.value

/-- One switch case of `extractStateProperties` (JS object assignment as a
record update). -/
def applyStateProp (states : AXStateProperties) (prop : CDPAXProperty) : AXStateProperties :=
  let value := prop.value
  match prop.name with
  | "focusable" => { states with focusable := some value.truthy }
  | "focused" => { states with focused := some value.truthy }
  | "editable" => { states with editable := some value.truthy }
  | "readonly" => { states with readonly := some value.truthy }
  | "disabled" => { states with disabled := some value.truthy }
  | "checked" =>
    { states with checked := some (if value = .vStr "mixed" then .mixed else .plain value.truthy) }
  | "pressed" =>
    { states with pressed := some (if value = .vStr "mixed" then .mixed else .plain value.truthy) }
  | "selected" => { states with selected := some value.truthy }
  | "expanded" => { states with expanded := some value.truthy }
  | "required" => { states with required := some value.truthy }
  | "invalid" =>
    { states with invalid := some (value = JSVal.vStr "true" || value = JSVal.vBool true : Bool) }
  | "valuemin" => { states with valueMin := some (jsNumber value) }
  | "valuemax" => { states with valueMax := some (jsNumber value) }
  | "valuenow" => { states with valueNow := some (jsNumber value) }
  | "valuetext" => { states with valueText := some (jsString value) }
  | "busy" => { states with busy := some value.truthy }
  | "hidden" => { states with hidden := some value.truthy }
  | "modal" => { states with modal := some value.truthy }
  | _ => states

/-- `extractStateProperties`: fold the property list into a state record
(a missing `properties` array is the empty list). -/
def extractStateProperties (axNode : CDPAXNode) : AXStateProperties :=
  axNode.properties.foldl applyStateProp {}

/-- `enhanceAXNode`: convert a CDP AX node to the enhanced format. -/
def enhanceAXNode (axNode : CDPAXNode) : EnhancedAXNode :=
  { axNodeId := axNode.nodeId
    ignored := axNode.ignored
    role := extractRole axNode
    name := extractName axNode
    description := extractDescription axNode
    properties := extractStateProperties axNode }

/-! ## Attribute records -/

/-- A JS `Record of string to string` of element attributes. -/
abbrev AttrRec := List (String × String)

/-- Loop body of `parseAttributes`: consume name/value pairs left to right
(CDP attribute arrays are even-length; a dangling name is ignored). -/
def parseAttrPairs (acc : AttrRec) : List String → AttrRec
  | [] => acc
  | [_] => acc
  | k :: v :: rest => parseAttrPairs (alSet acc k v) rest

/-- `parseAttributes`: CDP flat attribute array to a record. -/
def parseAttributes (attrArray : Option (List String)) : AttrRec :=
  match attrArray with
  | none => []
  | some l => parseAttrPairs [] l

/-- Executable model of JS `toLowerCase` (character-wise lowering). -/
def strToLower (s : String) : String := (s.data.map Char.toLower).asString

/-- Tag resolution `localName?.toLowerCase() || nodeName?.toLowerCase() || ''`
(the final alternative is the identity on the remaining empty-string case). -/
def tagOf (localName nodeName : String) : String :=
  if strToLower localName ≠ "" then strToLower localName else strToLower nodeName

/-! ## Layout lookup from the snapshot -/

/-- Layout info extracted from snapshot. -/
structure LayoutInfo where
  bounds : Bounds
  visible : Bool
  inViewport : Bool
  paintOrder : Int
  computedStyles : AttrRec
deriving DecidableEq, Repr

/-- The snapshot's parallel node table (only the array the merger reads). -/
structure SnapshotNodes where
  backendNodeId : Option (List Nat)
deriving DecidableEq, Repr

/-- The snapshot's parallel layout table; `styles` is captured by the fetcher
but never consulted by the merger. -/
structure SnapshotLayout where
  nodeIndex : Option (List Nat)
  bounds : Option (List (List Int))
  styles : Option (List (List Nat)) := none
  paintOrders : Option (List Int) := none
deriving DecidableEq, Repr

/-- One document of a DOMSnapshot capture. -/
structure SnapshotDocument where
  nodes : SnapshotNodes
  layout : SnapshotLayout
deriving DecidableEq, Repr

/-- A DOMSnapshot capture result. -/
structure CDPSnapshot where
  documents : List SnapshotDocument
  strings : List String := []
deriving DecidableEq, Repr

/-- One iteration of the `buildLayoutLookup` inner loop over layout indices
(`continue` is modelled by returning the lookup unchanged). -/
def processLayoutIdx (innerWidth innerHeight : Int) (bids nodeIndex : List Nat)
    (boundsArr : List (List Int)) (paintOrders : Option (List Int))
    (lookup : List (Nat × LayoutInfo)) (layoutIdx : Nat) : List (Nat × LayoutInfo) :=
  match nodeIndex[layoutIdx]? with
  | none => lookup
  | some nodeIdx =>
    match bids[nodeIdx]? with
    | none => lookup
    | some backendNodeId =>
      if backendNodeId = 0 then lookup
      else
        match boundsArr[layoutIdx]? with
        | none => lookup
        | some bounds =>
          match bounds with
          | x :: y :: width :: height :: _ =>
            let visible : Bool := decide (0 < width) && decide (0 < height)
            let inViewport : Bool := visible && decide (x < innerWidth) &&
              decide (y < innerHeight) && decide (0 < x + width) && decide (0 < y + height)
            let paintOrder := (paintOrders.bind (fun po => po[layoutIdx]?)).getD 0
            alSet lookup backendNodeId
              { bounds := ⟨x, y, width, height⟩
                visible := visible
                inViewport := inViewport
                paintOrder := paintOrder
                computedStyles := [] }
          | _ => lookup

/-- `buildLayoutLookup`: join layout-array indices to node indices to backend
node ids; the ambient `window.innerWidth` and `window.innerHeight` globals of
the source are explicit parameters here. -/
def buildLayoutLookup (snapshot : CDPSnapshot) (innerWidth innerHeight : Int) :
    List (Nat × LayoutInfo) :=
  if snapshot.documents.isEmpty then []
  else
    snapshot.documents.foldl (fun lookup doc =>
      match doc.nodes.backendNodeId, doc.layout.nodeIndex, doc.layout.bounds with
      | some bids, some nodeIndex, some boundsArr =>
        (List.range boundsArr.length).foldl
          (processLayoutIdx innerWidth innerHeight bids nodeIndex boundsArr
            doc.layout.paintOrders) lookup
      | _, _, _ => lookup) []

/-! ## Interactivity detection -/

/-- Roles that are inherently interactive. -/
def INTERACTIVE_ROLES : List String :=
  ["button", "checkbox", "combobox", "gridcell", "link", "listbox",
   "menu", "menubar", "menuitem", "menuitemcheckbox", "menuitemradio",
   "option", "radio", "scrollbar", "searchbox", "slider", "spinbutton",
   "switch", "tab", "textbox", "treeitem"]

/-- Tags that are inherently interactive. -/
def INTERACTIVE_TAGS : List String :=
  ["a", "button", "input", "select", "textarea", "details", "summary"]

/-- `isInteractive`: the interactivity cascade (the source's early returns
from the AX block are an optional verdict; falling off the block continues
with the tag and attribute checks). -/
def isInteractive (tag : String) (attributes : AttrRec) (ax : Option EnhancedAXNode)
    (visible : Bool) : Bool :=
  if !visible then false
  else
    let axResult : Option Bool :=
      match ax with
      | some a =>
        if !a.ignored then
          let props := a.properties
          if props.disabled = some true then some false
          else if props.hidden = some true then some false
          else if props.focusable = some true then some true
          else if props.editable = some true then some true
          else if props.checked.isSome then some true
          else if props.expanded.isSome then some true
          else if props.pressed.isSome then some true
          else if props.selected.isSome then some true
          else if INTERACTIVE_ROLES.contains a.role then some true
          else none
        else none
      | none => none
    match axResult with
    | some b => b
    | none =>
      if INTERACTIVE_TAGS.contains tag && !(tag == "a" && !strTruthy (alGet attributes "href")) then
        true
      else if strTruthy (alGet attributes "onclick") then true
      else if strTruthy (alGet attributes "onmousedown") then true
      else if strTruthy (alGet attributes "tabindex") && alGet attributes "tabindex" != some "-1" then
        true
      else if alGet attributes "contenteditable" == some "true" then true
      else false

/-! ## DOM tree model -/

/-- CDP DOM node (the fields the merger consults); absent `children` and
`shadowRoots` arrays behave exactly like empty ones in every loop, so both
are plain lists. -/
inductive CDPDOMNode where
  | mk (backendNodeId : Nat) (nodeType : Nat) (nodeName : String) (localName : String)
      (attributes : Option (List String)) (children : List CDPDOMNode)
      (shadowRoots : List CDPDOMNode) (contentDocument : Option CDPDOMNode)
deriving Repr

def CDPDOMNode.backendNodeId : CDPDOMNode → Nat
  | .mk b _ _ _ _ _ _ _ => b

def CDPDOMNode.nodeType : CDPDOMNode → Nat
  | .mk _ t _ _ _ _ _ _ => t

def CDPDOMNode.nodeName : CDPDOMNode → String
  | .mk _ _ n _ _ _ _ _ => n

def CDPDOMNode.localName : CDPDOMNode → String
  | .mk _ _ _ l _ _ _ _ => l

def CDPDOMNode.attributes : CDPDOMNode → Option (List String)
  | .mk _ _ _ _ a _ _ _ => a

def CDPDOMNode.children : CDPDOMNode → List CDPDOMNode
  | .mk _ _ _ _ _ c _ _ => c

def CDPDOMNode.shadowRoots : CDPDOMNode → List CDPDOMNode
  | .mk _ _ _ _ _ _ r _ => r

def CDPDOMNode.contentDocument : CDPDOMNode → Option CDPDOMNode
  | .mk _ _ _ _ _ _ _ d => d

/-! ## Enhanced element -/

/-- Scalar data of an enhanced element (everything but the child list);
an empty `compoundChildren` list models the absent JS field. -/
structure EEData where
  backendNodeId : Nat
  ref : String
  tag : String
  nodeType : Nat
  attributes : AttrRec
  bounds : Option Bounds
  visible : Bool
  inViewport : Bool
  paintOrder : Int
  ax : Option EnhancedAXNode
  interactive : Bool
  value : Option String
  inputType : Option String
  placeholder : Option String
  href : Option String
  compoundChildren : List CompoundChild
deriving DecidableEq, Repr

/-- Enhanced element - merged DOM + Layout + AX. -/
inductive EnhancedElement where
  | mk (data : EEData) (children : List EnhancedElement)
deriving Repr

def EnhancedElement.data : EnhancedElement → EEData
  | .mk d _ => d

def EnhancedElement.children : EnhancedElement → List EnhancedElement
  | .mk _ c => c

/-- Tags to skip when building tree. -/
def SKIP_TAGS : List String := ["script", "style", "noscript", "template"]

/-- `getCompoundChildren`: synthetic sub-controls for composite input types. -/
def getCompoundChildren (tag : String) (inputType : Option String) (value : Option String) :
    List CompoundChild :=
  if tag = "input" then
    match inputType with
    | some "file" =>
      [{ role := "button", name := "Choose File" },
       { role := "text", name := "Selected File", valueNow := some (jsOrStr value "No file chosen") }]
    | some "date" =>
      [{ role := "spinbutton", name := "Month" }, { role := "spinbutton", name := "Day" },
       { role := "spinbutton", name := "Year" }, { role := "button", name := "Show Calendar" }]
    | some "datetime-local" =>
      [{ role := "spinbutton", name := "Month" }, { role := "spinbutton", name := "Day" },
       { role := "spinbutton", name := "Year" }, { role := "button", name := "Show Calendar" }]
    | some "time" =>
      [{ role := "spinbutton", name := "Hour" }, { role := "spinbutton", name := "Minute" }]
    | some "color" =>
      [{ role := "button", name := "Color Picker", valueNow := value }]
    | some "number" =>
      [{ role := "textbox", name := "Value", valueNow := value },
       { role := "button", name := "Increment" }, { role := "button", name := "Decrement" }]
    | _ => []
  else []

/-- Merge filter mode. -/
inductive FilterMode where
  | all
  | interactive
deriving DecidableEq, BEq, Repr

/-- Result of one recursive build step: nothing, one node, or a list of nodes
spliced into the caller (the source's `EnhancedElement | EnhancedElement[] | null`). -/
inductive BuildResult where
  | nullRes
  | one (e : EnhancedElement)
  | many (es : List EnhancedElement)
deriving Repr

/-- Appending a build result to a caller's list (`if (result) push(...)`). -/
def BuildResult.toList : BuildResult → List EnhancedElement
  | .nullRes => []
  | .one e => [e]
  | .many es => es

/-- The per-node facet computation of `buildEnhancedTree` (tag resolution,
attribute parsing, AX/layout lookups, visibility defaults and the
interactivity classification), factored out of the recursion. -/
structure NodeFacets where
  tag : String
  attributes : AttrRec
  layout : Option LayoutInfo
  ax : Option EnhancedAXNode
  visible : Bool
  inViewport : Bool
  interactive : Bool
deriving DecidableEq, Repr

/-- Compute the facets of one DOM node from the correlation lookups. -/
def computeFacets (bid : Nat) (nn ln : String) (attrs : Option (List String))
    (axLookup : List (Nat × CDPAXNode)) (layoutLookup : List (Nat × LayoutInfo)) : NodeFacets :=
  let tag := tagOf ln nn
  let attributes := parseAttributes attrs
  let axNode := alGet axLookup bid
  let layout := alGet layoutLookup bid
  let ax := axNode.map enhanceAXNode
  let visible := (layout.map LayoutInfo.visible).getD true
  { tag := tag
    attributes := attributes
    layout := layout
    ax := ax
    visible := visible
    inViewport := (layout.map LayoutInfo.inViewport).getD false
    interactive := isInteractive tag attributes ax visible }

/-- The element-population step of `buildEnhancedTree` (identity, layout,
AX facet, form/link fields and compound children), factored out of the
recursion. -/
def mkEEData (bid nt : Nat) (fc : NodeFacets) (ref : String) : EEData :=
  let inputType : Option String :=
    if fc.tag = "input" then some (strToLower (jsOrStr (alGet fc.attributes "type") "text"))
    else none
  let value := alGet fc.attributes "value"
  let placeholder := alGet fc.attributes "placeholder"
  { backendNodeId := bid
    ref := ref
    tag := fc.tag
    nodeType := nt
    attributes := fc.attributes
    bounds := fc.layout.map LayoutInfo.bounds
    visible := fc.visible
    inViewport := fc.inViewport
    paintOrder := (fc.layout.map LayoutInfo.paintOrder).getD 0
    ax := fc.ax
    interactive := fc.interactive
    value := if strTruthy value && inputType != some "password" then value else none
    inputType := inputType
    placeholder := if strTruthy placeholder then placeholder else none
    href :=
      if fc.tag == "a" && strTruthy (alGet fc.attributes "href") then alGet fc.attributes "href"
      else none
    compoundChildren := getCompoundChildren fc.tag inputType value }

/-- Packaging of the splice branch: a non-empty list of bubbled-up children
or the null result. -/
def spliceResult (childResults : List EnhancedElement) (s : RegState) :
    BuildResult × RegState :=
  (if childResults.isEmpty then .nullRes else .many childResults, s)

mutual

/-- `buildEnhancedTree`: recursively build the enhanced tree from a DOM node,
threading the reference-registry state explicitly. -/
def buildEnhancedTree (domNode : CDPDOMNode) (axLookup : List (Nat × CDPAXNode))
    (layoutLookup : List (Nat × LayoutInfo)) (depth maxDepth : Nat)
    (filter : FilterMode) (s : RegState) : BuildResult × RegState :=
  match domNode with
  | .mk backendNodeId nodeType nodeName localName attrArray children shadowRoots contentDocument =>
    if depth > maxDepth then (.nullRes, s)
    else if nodeType ≠ 1 then (.nullRes, s)
    else
      let fc := computeFacets backendNodeId nodeName localName attrArray axLookup layoutLookup
      if SKIP_TAGS.contains fc.tag then (.nullRes, s)
      else if filter == FilterMode.interactive && !fc.interactive then
        let (r1, s1) := buildChildList children axLookup layoutLookup depth maxDepth filter s
        let (r2, s2) := buildShadowList shadowRoots axLookup layoutLookup depth maxDepth filter s1
        let (r3, s3) := buildContentDoc contentDocument axLookup layoutLookup depth maxDepth filter s2
        spliceResult (r1 ++ r2 ++ r3) s3
      else
        let (ref, s1) := assignRef backendNodeId s
        let (childElems, s2) :=
          if depth < maxDepth then
            let (r1, sa) :=
              buildChildList children axLookup layoutLookup (depth + 1) maxDepth filter s1
            let (r2, sb) :=
              buildShadowList shadowRoots axLookup layoutLookup (depth + 1) maxDepth filter sa
            let (r3, sc) :=
              buildContentDoc contentDocument axLookup layoutLookup (depth + 1) maxDepth filter sb
            (r1 ++ r2 ++ r3, sc)
          else ([], s1)
        (.one (.mk (mkEEData backendNodeId nodeType fc ref) childElems), s2)

/-- Loop over a regular child list, splicing each child's result. -/
def buildChildList (ns : List CDPDOMNode) (axLookup : List (Nat × CDPAXNode))
    (layoutLookup : List (Nat × LayoutInfo)) (depth maxDepth : Nat)
    (filter : FilterMode) (s : RegState) : List EnhancedElement × RegState :=
  match ns with
  | [] => ([], s)
  | c :: cs =>
    let (r, s1) := buildEnhancedTree c axLookup layoutLookup depth maxDepth filter s
    let (rest, s2) := buildChildList cs axLookup layoutLookup depth maxDepth filter s1
    (r.toList ++ rest, s2)

/-- Loop over shadow roots: each shadow root contributes the results of its
own child list (pierced, no wrapper node). -/
def buildShadowList (roots : List CDPDOMNode) (axLookup : List (Nat × CDPAXNode))
    (layoutLookup : List (Nat × LayoutInfo)) (depth maxDepth : Nat)
    (filter : FilterMode) (s : RegState) : List EnhancedElement × RegState :=
  match roots with
  | [] => ([], s)
  | .mk _ _ _ _ _ ch _ _ :: rs =>
    let (r1, s1) := buildChildList ch axLookup layoutLookup depth maxDepth filter s
    let (rest, s2) := buildShadowList rs axLookup layoutLookup depth maxDepth filter s1
    (r1 ++ rest, s2)

/-- Recursion into an embedded frame document, when present. -/
def buildContentDoc (cd : Option CDPDOMNode) (axLookup : List (Nat × CDPAXNode))
    (layoutLookup : List (Nat × LayoutInfo)) (depth maxDepth : Nat)
    (filter : FilterMode) (s : RegState) : List EnhancedElement × RegState :=
  match cd with
  | some c =>
    let (r, s1) := buildEnhancedTree c axLookup layoutLookup depth maxDepth filter s
    (r.toList, s1)
  | none => ([], s)

end

/-! ## Main merge API -/

/-- CDP frame tree (ids only; the rest of the frame payload is unused). -/
inductive CDPFrameTree where
  | mk (id : String) (childFrames : List CDPFrameTree)
deriving Repr

/-- Result of `fetchAllTrees`. -/
structure TreeFetchResult where
  dom : CDPDOMNode
  snapshot : CDPSnapshot
  axTrees : List (String × List CDPAXNode)
  frameTree : CDPFrameTree := .mk "" []
deriving Repr

/-- Merge options with the source's defaults. -/
structure MergeOptions where
  depth : Nat := 15
  filter : FilterMode := .all
  clearRefsFirst : Bool := true
deriving DecidableEq, Repr

/-- The AX lookup by backend node id: scan every frame's nodes in insertion
order, keeping only nodes with a truthy back-reference. -/
def buildAXLookup (axTrees : List (String × List CDPAXNode)) : List (Nat × CDPAXNode) :=
  axTrees.foldl (fun lookup ft =>
    ft.2.foldl (fun lookup node =>
      match node.backendDOMNodeId with
      | some b => if b ≠ 0 then alSet lookup b node else lookup
      | none => lookup) lookup) []

/-- Resolve the `<body>` element under the synthetic document/html wrappers. -/
def resolveBody (root : CDPDOMNode) : CDPDOMNode :=
  if root.nodeName = "#document" then
    match root.children.find? (fun c => c.localName == "html") with
    | some html =>
      match html.children.find? (fun c => c.localName == "body") with
      | some body => body
      | none => root
    | none => root
  else root

/-- `mergeToEnhancedTree`: merge all trees into an enhanced element tree.
The ambient viewport globals and the module-level registry state are explicit
parameters. -/
def mergeToEnhancedTree (fetchResult : TreeFetchResult) (options : MergeOptions)
    (innerWidth innerHeight : Int) (s : RegState) : BuildResult × RegState :=
  let s0 := if options.clearRefsFirst then clearRefs else s
  let axLookup := buildAXLookup fetchResult.axTrees
  let layoutLookup := buildLayoutLookup fetchResult.snapshot innerWidth innerHeight
  let root := resolveBody fetchResult.dom
  buildEnhancedTree root axLookup layoutLookup 0 options.depth options.filter s0

/-! ## ElementRef serialization -/

/-- Whether the JS state-property object has at least one key
(`Object.keys(properties).length > 0`). -/
def AXStateProperties.hasAnyKey (p : AXStateProperties) : Bool :=
  p.focusable.isSome || p.focused.isSome || p.editable.isSome || p.readonly.isSome ||
  p.disabled.isSome || p.checked.isSome || p.pressed.isSome || p.selected.isSome ||
  p.expanded.isSome || p.required.isSome || p.invalid.isSome || p.valueMin.isSome ||
  p.valueMax.isSome || p.valueNow.isSome || p.valueText.isSome || p.busy.isSome ||
  p.hidden.isSome || p.modal.isSome

/-- Scalar data of a serialized `ElementRef`; `none` and the empty
`compoundChildren`/`children` lists model absent JS fields. -/
structure ERData where
  ref : String
  tag : String
  role : String
  visible : Bool
  inViewport : Bool
  interactive : Bool
  name : Option String := none
  description : Option String := none
  bounds : Option Bounds := none
  ignored : Bool := false
  states : Option AXStateProperties := none
  inputType : Option String := none
  value : Option String := none
  placeholder : Option String := none
  href : Option String := none
  id : Option String := none
  className : Option String := none
  compoundChildren : List CompoundChild := []
deriving DecidableEq, Repr

/-- Serialized element reference tree. -/
inductive ElementRef where
  | mk (data : ERData) (children : List ElementRef)
deriving Repr

def ElementRef.data : ElementRef → ERData
  | .mk d _ => d

def ElementRef.children : ElementRef → List ElementRef
  | .mk _ c => c

/-- The scalar part of `toElementRef`: project one element's data to the
`ElementRef` fields. -/
def toERData (d : EEData) : ERData :=
  { ref := d.ref
    tag := d.tag
    role := jsOrStr (d.ax.map EnhancedAXNode.role) "generic"
    visible := d.visible
    inViewport := d.inViewport
    interactive := d.interactive
    name :=
      match d.ax with
      | some a => if a.name ≠ "" then some a.name else none
      | none => none
    description :=
      match d.ax with
      | some a => if a.description ≠ "" then some a.description else none
      | none => none
    bounds := d.bounds
    ignored := (d.ax.map EnhancedAXNode.ignored).getD false
    states :=
      match d.ax with
      | some a => if a.properties.hasAnyKey then some a.properties else none
      | none => none
    inputType := if strTruthy d.inputType then d.inputType else none
    value := if strTruthy d.value then d.value else none
    placeholder := if strTruthy d.placeholder then d.placeholder else none
    href := if strTruthy d.href then d.href else none
    id := if strTruthy (alGet d.attributes "id") then alGet d.attributes "id" else none
    className :=
      if strTruthy (alGet d.attributes "class") then
        (alGet d.attributes "class").map (fun c => c.take 100)
      else none
    compoundChildren := d.compoundChildren }

mutual

/-- `toElementRef`: convert an enhanced element to the `ElementRef` format. -/
def toElementRef (element : EnhancedElement) : ElementRef :=
  match element with
  | .mk d ch => .mk (toERData d) (toElementRefList ch)

/-- Children loop of `toElementRef`. -/
def toElementRefList (es : List EnhancedElement) : List ElementRef :=
  match es with
  | [] => []
  | e :: rest => toElementRef e :: toElementRefList rest

end

/-! ## Session manager model

The timer-driven lifecycle is modelled as explicit state transition
functions taking the current time: JS `Date.now()` becomes the `now`
argument, a pending `setTimeout` handle becomes the absolute time at which
the scheduled `autoDetach` would run, and the transport's attachment set is
part of the state. -/

/-- Auto-detach timeout (30 seconds of inactivity). -/
def AUTO_DETACH_TIMEOUT : Nat := 30000

/-- Per-tab session-manager state plus the transport's attachment bookkeeping. -/
structure SessionState where
  lastActivity : List (Nat × Nat)
  detachTimers : List (Nat × Nat)
  attached : List Nat
deriving DecidableEq, Repr

/-- `cdp.isAttached`. -/
def isAttached (tabId : Nat) (st : SessionState) : Bool :=
  st.attached.contains tabId

/-- `touchSession`: refresh the activity timestamp, clear any pending timer
and schedule a fresh auto-detach timer one full window from now. -/
def touchSession (tabId now : Nat) (st : SessionState) : SessionState :=
  { st with
    lastActivity := alSet st.lastActivity tabId now
    detachTimers := alSet st.detachTimers tabId (now + AUTO_DETACH_TIMEOUT) }

/-- `autoDetach`, run when a scheduled timer fires: detach only when the full
inactivity window elapsed since the last activity and the tab is attached,
then drop the timer and activity entries. -/
def autoDetach (tabId now : Nat) (st : SessionState) : SessionState :=
  let lastTime := (alGet st.lastActivity tabId).getD 0
  let elapsed := now - lastTime
  let st1 :=
    if AUTO_DETACH_TIMEOUT ≤ elapsed && isAttached tabId st then
      { st with attached := st.attached.filter (fun x => x ≠ tabId) }
    else st
  { st1 with
    detachTimers := alErase st1.detachTimers tabId
    lastActivity := alErase st1.lastActivity tabId }

/-- `ensureSession`: attach through the transport when not yet attached, then
refresh the activity timer (the per-tab in-flight lock serializes calls and
is invisible in this sequential model). -/
def ensureSession (tabId now : Nat) (st : SessionState) : SessionState :=
  let st1 :=
    if isAttached tabId st then st
    else { st with attached := tabId :: st.attached }
  touchSession tabId now st1

/-! ## Tree fetcher model

The asynchronous protocol calls are modelled by their outcomes: each frame's
`Accessibility.getFullAXTree` request either resolves with a node list or
rejects, which `fetchFrameAXTree` absorbs into an empty list. -/

mutual

/-- `extractFrameIds`: all frame ids, depth-first, root included. -/
def extractFrameIds : CDPFrameTree → List String
  | .mk id childFrames => id :: extractFrameIdsList childFrames

/-- Child-frame loop of `extractFrameIds`. -/
def extractFrameIdsList : List CDPFrameTree → List String
  | [] => []
  | t :: ts => extractFrameIds t ++ extractFrameIdsList ts

end

/-- `fetchFrameAXTree`: a failed per-frame AX query is caught and degraded to
an empty node list. -/
def fetchFrameAXTree (response : Except String (List CDPAXNode)) : List CDPAXNode :=
  match response with
  | .ok nodes => nodes
  | .error _ => []

/-- `fetchAllAXTrees`: fetch every frame's AX tree and keep the non-empty
results, keyed by frame id in frame order. -/
def fetchAllAXTrees (responses : List (String × Except String (List CDPAXNode))) :
    List (String × List CDPAXNode) :=
  responses.foldl (fun axTrees fr =>
    let nodes := fetchFrameAXTree fr.2
    if nodes.isEmpty then axTrees else alSet axTrees fr.1 nodes) []

/-- `fetchAllTrees`: the combined fetch; a structural failure of the DOM or
snapshot queries would reject the whole call, while per-frame AX failures are
absorbed inside `fetchAllAXTrees`, so given DOM and snapshot results the
fetch always resolves. -/
def fetchAllTrees (dom : CDPDOMNode) (snapshot : CDPSnapshot) (frameTree : CDPFrameTree)
    (axResponses : List (String × Except String (List CDPAXNode))) :
    Except String TreeFetchResult :=
  .ok { dom := dom, snapshot := snapshot, axTrees := fetchAllAXTrees axResponses,
        frameTree := frameTree }


/-! ## Derived measures and views used by the verification -/

mutual

/-- Preorder flattening of an enhanced element: its data followed by the
flattened children. -/
def flattenE : EnhancedElement → List EEData
  | .mk d ch => d :: flattenL ch

/-- Preorder flattening of an element list. -/
def flattenL : List EnhancedElement → List EEData
  | [] => []
  | e :: es => flattenE e ++ flattenL es

end

/-- Preorder flattening of a build result. -/
def BuildResult.flatten (r : BuildResult) : List EEData := flattenL r.toList

mutual

/-- Height of an enhanced element (a single node has height 1). -/
def eeHeight : EnhancedElement → Nat
  | .mk _ ch => 1 + eeHeightL ch

/-- Maximum height over an element list. -/
def eeHeightL : List EnhancedElement → Nat
  | [] => 0
  | e :: es => max (eeHeight e) (eeHeightL es)

end

mutual

/-- Height of a DOM node counting regular children, shadow-root subtrees and
embedded documents alike (a leaf has height 1). -/
def nodeHeight : CDPDOMNode → Nat
  | .mk _ _ _ _ _ ch sh cd => 1 + max (nodeHeightL ch) (max (nodeHeightL sh) (nodeHeightO cd))

/-- Maximum height over a node list. -/
def nodeHeightL : List CDPDOMNode → Nat
  | [] => 0
  | c :: cs => max (nodeHeight c) (nodeHeightL cs)

/-- Height of an optional embedded document. -/
def nodeHeightO : Option CDPDOMNode → Nat
  | none => 0
  | some c => nodeHeight c

end

/-- Run `assignRef` over a list of backend node ids, keeping the final state. -/
def assignRefs (bs : List Nat) (s : RegState) : RegState :=
  bs.foldl (fun st b => (assignRef b st).2) s

/-- Well-formedness of a registry state, as established by `clearRefs` and
preserved by `assignRef`: the two maps are mutually inverse and every issued
reference is `ref_k` for a positive counter value at most the current one. -/
def RegWF (s : RegState) : Prop :=
  (∀ b r, alGet s.backendToRef b = some r → alGet s.refToBackend r = some b) ∧
  (∀ r b, alGet s.refToBackend r = some b → ∃ k, 1 ≤ k ∧ k ≤ s.refCounter ∧ r = refName k)

/-- One registry state extends another when every established
backend-to-reference binding is kept. -/
def RegExtends (s t : RegState) : Prop :=
  ∀ b r, alGet s.backendToRef b = some r → alGet t.backendToRef b = some r

/-- Registry preservation along the tree walk: well-formedness is kept and no
established reference binding is lost. -/
def BuildPres (c : CDPDOMNode) : Prop :=
  ∀ (axL : List (Nat × CDPAXNode)) (layL : List (Nat × LayoutInfo)) (d maxD : Nat)
    (f : FilterMode) (s : RegState), RegWF s →
    RegWF (buildEnhancedTree c axL layL d maxD f s).2 ∧
    RegExtends s (buildEnhancedTree c axL layL d maxD f s).2

/-- Replaying the walk from any state that keeps all references the first
pass established returns the first pass's result and leaves the state alone. -/
def BuildIdem (c : CDPDOMNode) : Prop :=
  ∀ (axL : List (Nat × CDPAXNode)) (layL : List (Nat × LayoutInfo)) (d maxD : Nat)
    (f : FilterMode) (s T : RegState), RegWF s →
    RegExtends (buildEnhancedTree c axL layL d maxD f s).2 T →
    buildEnhancedTree c axL layL d maxD f T = ((buildEnhancedTree c axL layL d maxD f s).1, T)

/-- Per-element field characterization: the accessibility facet, visibility
and in-viewport flags come from the correlation lookups at the element's own
backend node id, and a password input never carries the value field. -/
def EEFieldOK (axL : List (Nat × CDPAXNode)) (layL : List (Nat × LayoutInfo))
    (d : EEData) : Prop :=
  d.ax = (alGet axL d.backendNodeId).map enhanceAXNode ∧
  d.visible = ((alGet layL d.backendNodeId).map LayoutInfo.visible).getD true ∧
  d.inViewport = ((alGet layL d.backendNodeId).map LayoutInfo.inViewport).getD false ∧
  (d.inputType = some "password" → d.value = none)

/-- Characterization of every layout record the lookup can produce: the
visibility flag is exactly bounds-positivity, the in-viewport flag is the
bounds/viewport intersection test, and captured computed styles are empty. -/
def LayoutOK (innerWidth innerHeight : Int) (info : LayoutInfo) : Prop :=
  info.visible = (decide (0 < info.bounds.width) && decide (0 < info.bounds.height)) ∧
  info.inViewport = (info.visible && decide (info.bounds.x < innerWidth) &&
    decide (info.bounds.y < innerHeight) && decide (0 < info.bounds.x + info.bounds.width) &&
    decide (0 < info.bounds.y + info.bounds.height)) ∧
  info.computedStyles = []

/-- The walk's per-element fields: statement for one node. -/
def FieldsOK (n : CDPDOMNode) : Prop :=
  ∀ (axL : List (Nat × CDPAXNode)) (layL : List (Nat × LayoutInfo)) (d maxD : Nat)
    (f : FilterMode) (s : RegState),
    ∀ dd ∈ (buildEnhancedTree n axL layL d maxD f s).1.flatten, EEFieldOK axL layL dd

/-- Height bound for the walk from one node. -/
def HeightOK (n : CDPDOMNode) : Prop :=
  ∀ (axL : List (Nat × CDPAXNode)) (layL : List (Nat × LayoutInfo)) (d maxD : Nat)
    (f : FilterMode) (s : RegState),
    ∀ e ∈ (buildEnhancedTree n axL layL d maxD f s).1.toList, eeHeight e ≤ maxD + 1 - d

/-- Interactive-filter agreement for one node, at independent depths for the
two runs, as long as neither run's depth budget cuts the subtree. -/
def FilterOK (n : CDPDOMNode) : Prop :=
  ∀ (axL : List (Nat × CDPAXNode)) (layL : List (Nat × LayoutInfo)) (maxD dI dA : Nat)
    (sI sA : RegState),
    dI + nodeHeight n ≤ maxD + 1 → dA + nodeHeight n ≤ maxD + 1 →
    ((buildEnhancedTree n axL layL dI maxD .interactive sI).1.flatten.map
      EEData.backendNodeId) =
    (((buildEnhancedTree n axL layL dA maxD .all sA).1.flatten.filter
      EEData.interactive).map EEData.backendNodeId)

/-- One-node attribute-array agreement up to the `value` attribute of a
password input: either the raw arrays are equal, or both nodes are password
inputs whose parsed records agree after erasing `value`. -/
def pwAttrsOK (nn ln : String) (a b : Option (List String)) : Bool :=
  a == b ||
  (tagOf ln nn == "input" &&
   strToLower (jsOrStr (alGet (parseAttributes a) "type") "text") == "password" &&
   strToLower (jsOrStr (alGet (parseAttributes b) "type") "text") == "password" &&
   alErase (parseAttributes a) "value" == alErase (parseAttributes b) "value")

mutual

/-- Two DOM trees differ at most in the `value` attributes of password
inputs. -/
def pwEquivN : CDPDOMNode → CDPDOMNode → Bool
  | .mk bidA ntA nnA lnA aA chA shA cdA, .mk bidB ntB nnB lnB aB chB shB cdB =>
    bidA == bidB && ntA == ntB && nnA == nnB && lnA == lnB &&
    pwAttrsOK nnA lnA aA aB &&
    pwEquivL chA chB && pwEquivL shA shB && pwEquivO cdA cdB

def pwEquivL : List CDPDOMNode → List CDPDOMNode → Bool
  | [], [] => true
  | a :: as, b :: bs => pwEquivN a b && pwEquivL as bs
  | _, _ => false

def pwEquivO : Option CDPDOMNode → Option CDPDOMNode → Bool
  | none, none => true
  | some a, some b => pwEquivN a b
  | _, _ => false

end

/-- Password-value noninterference statement for one subtree: replacing the
subtree by any pw-equivalent one leaves the serialized output and the final
registry state unchanged. -/
def PwOK (n : CDPDOMNode) : Prop :=
  ∀ m, pwEquivN n m = true →
  ∀ (axL : List (Nat × CDPAXNode)) (layL : List (Nat × LayoutInfo)) (d maxD : Nat)
    (f : FilterMode) (s : RegState),
    toElementRefList (buildEnhancedTree n axL layL d maxD f s).1.toList =
      toElementRefList (buildEnhancedTree m axL layL d maxD f s).1.toList ∧
    (buildEnhancedTree n axL layL d maxD f s).2 = (buildEnhancedTree m axL layL d maxD f s).2

/-! # Verified properties

Supporting lemmas, then one theorem per claim of the specification review. -/

/-! ## Association list and decimal-rendering lemmas -/

theorem alGet_alSet_self {κ α : Type} [DecidableEq κ] (m : List (κ × α)) (k : κ) (v : α) :
    alGet (alSet m k v) k = some v := by
  induction m with
  | nil => simp [alSet, alGet]
  | cons p ps ih =>
    by_cases h : p.1 = k
    · simp [alSet, alGet, h]
    · simp [alSet, alGet, h, ih]

theorem alGet_alSet_ne {κ α : Type} [DecidableEq κ] (m : List (κ × α)) (k k' : κ) (v : α)
    (h : k ≠ k') : alGet (alSet m k v) k' = alGet m k' := by
  have h' : ¬ (k = k') := h
  induction m with
  | nil => simp [alSet, alGet, h']
  | cons p ps ih =>
    by_cases hp : p.1 = k
    · have hp' : ¬ p.1 = k' := fun hh => h' (hp.symm.trans hh)
      simp [alSet, alGet, hp, hp', h']
    · have hset : alSet (p :: ps) k v = p :: alSet ps k v := by simp [alSet, hp]
      rw [hset]
      by_cases hp' : p.1 = k'
      · simp [alGet, hp']
      · simp [alGet, hp', ih]

/-- Values reachable by `alGet` after an `alSet` are the new value or an old one. -/
theorem alGet_alSet_cases {κ α : Type} [DecidableEq κ] (m : List (κ × α)) (k k' : κ) (v v' : α)
    (h : alGet (alSet m k v) k' = some v') : v' = v ∨ alGet m k' = some v' := by
  by_cases hk : k = k'
  · subst hk; rw [alGet_alSet_self] at h; exact Or.inl (Option.some.inj h).symm
  · rw [alGet_alSet_ne m k k' v hk] at h; exact Or.inr h

theorem digitsAux_of_lt (n : Nat) (h : n < 10) : digitsAux n = [Nat.digitChar n] := by
  unfold digitsAux; simp [h]

theorem digitsAux_of_ge (n : Nat) (h : ¬ n < 10) :
    digitsAux n = digitsAux (n / 10) ++ [Nat.digitChar (n % 10)] := by
  conv_lhs => unfold digitsAux
  simp [h]

theorem digitsAux_ne_nil (n : Nat) : digitsAux n ≠ [] := by
  by_cases h : n < 10
  · simp [digitsAux_of_lt n h]
  · simp [digitsAux_of_ge n h]

theorem toDigitsCore_eq_digitsAux (fuel : Nat) :
    ∀ n acc, n < fuel → Nat.toDigitsCore 10 fuel n acc = digitsAux n ++ acc := by
  induction fuel with
  | zero => intro n acc h; omega
  | succ f ih =>
    intro n acc h
    by_cases hd : n / 10 = 0
    · have hn : n < 10 := by omega
      simp only [Nat.toDigitsCore, hd, if_true]
      rw [digitsAux_of_lt n hn, Nat.mod_eq_of_lt hn]
      simp
    · have hn : ¬ n < 10 := by
        intro hlt
        exact hd (Nat.div_eq_of_lt hlt)
      simp only [Nat.toDigitsCore, hd, if_false]
      have hfuel : n / 10 < f := by
        have h1 : n / 10 < n := Nat.div_lt_self (by omega) (by omega)
        omega
      rw [ih (n / 10) (Nat.digitChar (n % 10) :: acc) hfuel, digitsAux_of_ge n hn]
      simp

theorem repr_eq_digitsAux (n : Nat) : Nat.repr n = (digitsAux n).asString := by
  have h : Nat.toDigits 10 n = digitsAux n := by
    unfold Nat.toDigits
    rw [toDigitsCore_eq_digitsAux (n + 1) n [] (Nat.lt_succ_self n)]
    simp
  simp [Nat.repr, h]

theorem digitChar_inj_lt {i j : Nat} (hi : i < 10) (hj : j < 10)
    (h : Nat.digitChar i = Nat.digitChar j) : i = j := by
  interval_cases i <;> interval_cases j <;> simp_all [Nat.digitChar]

theorem digitsAux_inj : ∀ m n : Nat, digitsAux m = digitsAux n → m = n := by
  intro m
  induction m using Nat.strong_induction_on with
  | _ m ih =>
    intro n h
    by_cases hm : m < 10 <;> by_cases hn : n < 10
    · rw [digitsAux_of_lt m hm, digitsAux_of_lt n hn] at h
      simp at h
      exact digitChar_inj_lt hm hn h
    · rw [digitsAux_of_lt m hm, digitsAux_of_ge n hn] at h
      have hlen := congrArg List.length h
      simp only [List.length_append, List.length_cons, List.length_nil] at hlen
      have hpos := List.length_pos.mpr (digitsAux_ne_nil (n / 10))
      omega
    · rw [digitsAux_of_ge m hm, digitsAux_of_lt n hn] at h
      have hlen := congrArg List.length h
      simp only [List.length_append, List.length_cons, List.length_nil] at hlen
      have hpos := List.length_pos.mpr (digitsAux_ne_nil (m / 10))
      omega
    · rw [digitsAux_of_ge m hm, digitsAux_of_ge n hn] at h
      have hparts := List.append_inj' h (by simp)
      have hdiv : m / 10 = n / 10 :=
        ih (m / 10) (Nat.div_lt_self (by omega) (by omega)) (n / 10) hparts.1
      have hmod : m % 10 = n % 10 := by
        have h2 := hparts.2
        simp at h2
        exact digitChar_inj_lt (Nat.mod_lt m (by omega)) (Nat.mod_lt n (by omega)) h2
      omega

theorem nat_repr_inj {m n : Nat} (h : Nat.repr m = Nat.repr n) : m = n := by
  rw [repr_eq_digitsAux, repr_eq_digitsAux] at h
  exact digitsAux_inj m n (List.asString_inj.mp h)


/-! ## Reference-name lemmas -/

theorem refName_inj {k j : Nat} (h : refName k = refName j) : k = j := by
  have hd := congrArg String.data h
  have hd' : ("ref_".data ++ (Nat.repr k).data) = ("ref_".data ++ (Nat.repr j).data) := hd
  have hr : (Nat.repr k).data = (Nat.repr j).data := List.append_cancel_left hd'
  exact nat_repr_inj (String.toList_inj.mp hr)

theorem refName_ne_empty (k : Nat) : refName k ≠ "" := by
  intro h
  have hd := congrArg String.data h
  have hlen := congrArg List.length hd
  simp [refName] at hlen

/-! ## Registry invariant lemmas -/

theorem regWF_clearRefs : RegWF clearRefs := by
  constructor
  · intro b r h; simp [clearRefs, alGet] at h
  · intro r b h; simp [clearRefs, alGet] at h

/-- Under the invariant, an issued reference has the `ref_k` shape. -/
theorem regWF_shape (s : RegState) (hs : RegWF s) (b : Nat) (r : String)
    (h : alGet s.backendToRef b = some r) : ∃ k, 1 ≤ k ∧ k ≤ s.refCounter ∧ r = refName k :=
  hs.2 r b (hs.1 b r h)

/-- Under the invariant, an issued reference is a truthy (non-empty) string. -/
theorem regWF_truthy (s : RegState) (hs : RegWF s) (b : Nat) (r : String)
    (h : alGet s.backendToRef b = some r) : r ≠ "" := by
  obtain ⟨k, _, _, hk⟩ := regWF_shape s hs b r h
  exact hk ▸ refName_ne_empty k

/-- Under the invariant, distinct backend node ids never hold the same
reference in one registry state. -/
theorem regWF_inj (s : RegState) (hs : RegWF s) (b₁ b₂ : Nat) (r : String)
    (h₁ : alGet s.backendToRef b₁ = some r) (h₂ : alGet s.backendToRef b₂ = some r) :
    b₁ = b₂ := by
  have e₁ := hs.1 b₁ r h₁
  have e₂ := hs.1 b₂ r h₂
  rw [e₁] at e₂
  exact Option.some.inj e₂

/-- `assignRef` on an id already bound (to a truthy reference) returns that
reference and leaves the state unchanged. -/
theorem assignRef_of_existing (b : Nat) (s : RegState) (r : String)
    (h : alGet s.backendToRef b = some r) (hr : r ≠ "") : assignRef b s = (r, s) := by
  simp [assignRef, h, hr]

/-- `assignRef` on an unbound id allocates the next sequential reference. -/
theorem assignRef_of_fresh (b : Nat) (s : RegState) (h : alGet s.backendToRef b = none) :
    assignRef b s = (refName (s.refCounter + 1),
      ⟨alSet s.backendToRef b (refName (s.refCounter + 1)),
       alSet s.refToBackend (refName (s.refCounter + 1)) b, s.refCounter + 1⟩) := by
  simp [assignRef, h]

/-- After `assignRef`, the id is bound to the returned reference. -/
theorem assignRef_lookup_after (b : Nat) (s : RegState) (hs : RegWF s) :
    alGet (assignRef b s).2.backendToRef b = some (assignRef b s).1 := by
  cases h : alGet s.backendToRef b with
  | some r =>
    have hr := regWF_truthy s hs b r h
    rw [assignRef_of_existing b s r h hr]
    exact h
  | none =>
    rw [assignRef_of_fresh b s h]
    exact alGet_alSet_self _ _ _

/-- `assignRef` preserves the registry invariant. -/
theorem assignRef_WF (b : Nat) (s : RegState) (hs : RegWF s) : RegWF (assignRef b s).2 := by
  cases h : alGet s.backendToRef b with
  | some r =>
    have hr := regWF_truthy s hs b r h
    rw [assignRef_of_existing b s r h hr]
    exact hs
  | none =>
    rw [assignRef_of_fresh b s h]
    dsimp only
    constructor
    · intro b' r' h'
      rcases alGet_alSet_cases _ _ _ _ _ h' with hv | hold
      · subst hv
        by_cases hb : b = b'
        · subst hb
          exact alGet_alSet_self _ _ _
        · rw [alGet_alSet_ne _ _ _ _ hb] at h'
          exfalso
          obtain ⟨k, _, hk, hkr⟩ := regWF_shape s hs b' _ h'
          have hkc : k = s.refCounter + 1 := refName_inj hkr.symm
          omega
      · have hbb : ¬ b = b' := fun hb => by rw [← hb] at hold; rw [hold] at h; cases h
        have hrb := hs.1 b' r' hold
        have hne : refName (s.refCounter + 1) ≠ r' := by
          intro he
          obtain ⟨k, _, hk, hkr⟩ := hs.2 r' b' hrb
          have : s.refCounter + 1 = k := refName_inj (he.trans hkr)
          omega
        rw [alGet_alSet_ne _ _ _ _ hne]
        exact hrb
    · intro r' b' h'
      rcases alGet_alSet_cases _ _ _ _ _ h' with hv | hold
      · by_cases hr : refName (s.refCounter + 1) = r'
        · exact ⟨s.refCounter + 1, by omega, Nat.le_refl _, hr.symm⟩
        · rw [alGet_alSet_ne _ _ _ _ hr] at h'
          obtain ⟨k, h1, h2, h3⟩ := hs.2 r' b' h'
          refine ⟨k, h1, ?_, h3⟩
          dsimp only
          omega
      · obtain ⟨k, h1, h2, h3⟩ := hs.2 r' b' hold
        refine ⟨k, h1, ?_, h3⟩
        dsimp only
        omega

/-- `assignRef` never discards an established binding. -/
theorem assignRef_extends (b : Nat) (s : RegState) (hs : RegWF s) :
    RegExtends s (assignRef b s).2 := by
  intro b' r' h'
  cases h : alGet s.backendToRef b with
  | some r =>
    rw [assignRef_of_existing b s r h (regWF_truthy s hs b r h)]
    exact h'
  | none =>
    rw [assignRef_of_fresh b s h]
    have hbb : b ≠ b' := fun hb => by rw [hb, h'] at h; cases h
    rw [alGet_alSet_ne _ _ _ _ hbb]
    exact h'

theorem regExtends_refl (s : RegState) : RegExtends s s := fun _ _ h => h

theorem regExtends_trans {s t u : RegState} (h₁ : RegExtends s t) (h₂ : RegExtends t u) :
    RegExtends s u := fun b r h => h₂ b r (h₁ b r h)

/-- `assignRefs` preserves the invariant and every established binding. -/
theorem assignRefs_WF_extends (bs : List Nat) :
    ∀ s : RegState, RegWF s → RegWF (assignRefs bs s) ∧ RegExtends s (assignRefs bs s) := by
  induction bs with
  | nil => exact fun s hs => ⟨hs, regExtends_refl s⟩
  | cons b bs ih =>
    intro s hs
    have h1 := assignRef_WF b s hs
    obtain ⟨hwf, hext⟩ := ih (assignRef b s).2 h1
    exact ⟨hwf, regExtends_trans (assignRef_extends b s hs) hext⟩

/-! ## Induction over the DOM tree -/

/-- Strong induction over a DOM node: the motive may be used for any regular
child, for any child of a shadow root (the walk recurses into those, not into
the root itself) and for the embedded document. -/
theorem CDPDOMNode.inductionOn (motive : CDPDOMNode → Prop)
    (step : ∀ (bid nt : Nat) (nn ln : String) (attrs : Option (List String))
        (ch sh : List CDPDOMNode) (cd : Option CDPDOMNode),
        (∀ c ∈ ch, motive c) → (∀ r ∈ sh, ∀ c ∈ r.children, motive c) →
        (∀ c, cd = some c → motive c) →
        motive (.mk bid nt nn ln attrs ch sh cd)) :
    ∀ n, motive n := by
  have H : ∀ k n, sizeOf n ≤ k → motive n := by
    intro k
    induction k with
    | zero =>
      intro n h
      cases n with
      | mk bid nt nn ln attrs ch sh cd => simp at h
    | succ k ih =>
      intro n h
      cases n with
      | mk bid nt nn ln attrs ch sh cd =>
        simp at h
        apply step
        · intro c hc
          have hlt := List.sizeOf_lt_of_mem hc
          apply ih; omega
        · intro r hr c hc
          have hltr := List.sizeOf_lt_of_mem hr
          cases r with
          | mk bid2 nt2 nn2 ln2 attrs2 ch2 sh2 cd2 =>
            have hc2 : c ∈ ch2 := hc
            have hltc := List.sizeOf_lt_of_mem hc2
            have hsz : sizeOf (CDPDOMNode.mk bid2 nt2 nn2 ln2 attrs2 ch2 sh2 cd2) =
                1 + sizeOf bid2 + sizeOf nt2 + sizeOf nn2 + sizeOf ln2 + sizeOf attrs2 +
                  sizeOf ch2 + sizeOf sh2 + sizeOf cd2 := by simp
            rw [hsz] at hltr
            apply ih
            omega
        · intro c hc
          subst hc
          have hlt : sizeOf c < sizeOf (some c) := by simp
          apply ih; omega
  intro n
  exact H (sizeOf n) n (Nat.le_refl _)

/-! ## Unfolding lemmas for the tree walk -/

set_option maxHeartbeats 1000000 in
theorem buildEnhancedTree_mk (bid nt : Nat) (nn ln : String) (attrs : Option (List String))
    (ch sh : List CDPDOMNode) (cd : Option CDPDOMNode)
    (axL : List (Nat × CDPAXNode)) (layL : List (Nat × LayoutInfo))
    (d maxD : Nat) (f : FilterMode) (s : RegState) :
    buildEnhancedTree (.mk bid nt nn ln attrs ch sh cd) axL layL d maxD f s =
      (if d > maxD then (.nullRes, s)
      else if nt ≠ 1 then (.nullRes, s)
      else
        let fc := computeFacets bid nn ln attrs axL layL
        if SKIP_TAGS.contains fc.tag then (.nullRes, s)
        else if f == FilterMode.interactive && !fc.interactive then
          let (r1, s1) := buildChildList ch axL layL d maxD f s
          let (r2, s2) := buildShadowList sh axL layL d maxD f s1
          let (r3, s3) := buildContentDoc cd axL layL d maxD f s2
          spliceResult (r1 ++ r2 ++ r3) s3
        else
          let (ref, s1) := assignRef bid s
          let (childElems, s2) :=
            if d < maxD then
              let (r1, sa) := buildChildList ch axL layL (d + 1) maxD f s1
              let (r2, sb) := buildShadowList sh axL layL (d + 1) maxD f sa
              let (r3, sc) := buildContentDoc cd axL layL (d + 1) maxD f sb
              (r1 ++ r2 ++ r3, sc)
            else ([], s1)
          (.one (.mk (mkEEData bid nt fc ref) childElems), s2)) := by
  rw [buildEnhancedTree.eq_def]

theorem buildChildList_nil (axL : List (Nat × CDPAXNode)) (layL : List (Nat × LayoutInfo))
    (d maxD : Nat) (f : FilterMode) (s : RegState) :
    buildChildList [] axL layL d maxD f s = ([], s) := by
  rw [buildChildList.eq_def]

theorem buildChildList_cons (c : CDPDOMNode) (cs : List CDPDOMNode)
    (axL : List (Nat × CDPAXNode)) (layL : List (Nat × LayoutInfo))
    (d maxD : Nat) (f : FilterMode) (s : RegState) :
    buildChildList (c :: cs) axL layL d maxD f s =
      (let (r, s1) := buildEnhancedTree c axL layL d maxD f s
       let (rest, s2) := buildChildList cs axL layL d maxD f s1
       (r.toList ++ rest, s2)) := by
  rw [buildChildList.eq_def]

theorem buildShadowList_nil (axL : List (Nat × CDPAXNode)) (layL : List (Nat × LayoutInfo))
    (d maxD : Nat) (f : FilterMode) (s : RegState) :
    buildShadowList [] axL layL d maxD f s = ([], s) := by
  rw [buildShadowList.eq_def]

theorem buildShadowList_cons (bid nt : Nat) (nn ln : String) (attrs : Option (List String))
    (ch sh : List CDPDOMNode) (cd : Option CDPDOMNode) (rs : List CDPDOMNode)
    (axL : List (Nat × CDPAXNode)) (layL : List (Nat × LayoutInfo))
    (d maxD : Nat) (f : FilterMode) (s : RegState) :
    buildShadowList (CDPDOMNode.mk bid nt nn ln attrs ch sh cd :: rs) axL layL d maxD f s =
      (let (r1, s1) := buildChildList ch axL layL d maxD f s
       let (rest, s2) := buildShadowList rs axL layL d maxD f s1
       (r1 ++ rest, s2)) := by
  rw [buildShadowList.eq_def]

theorem buildContentDoc_none (axL : List (Nat × CDPAXNode)) (layL : List (Nat × LayoutInfo))
    (d maxD : Nat) (f : FilterMode) (s : RegState) :
    buildContentDoc none axL layL d maxD f s = ([], s) := by
  rw [buildContentDoc.eq_def]

theorem buildContentDoc_some (c : CDPDOMNode) (axL : List (Nat × CDPAXNode))
    (layL : List (Nat × LayoutInfo)) (d maxD : Nat) (f : FilterMode) (s : RegState) :
    buildContentDoc (some c) axL layL d maxD f s =
      (let (r, s1) := buildEnhancedTree c axL layL d maxD f s
       (r.toList, s1)) := by
  rw [buildContentDoc.eq_def]


/-! ## Claim C2 and C9, registry preservation and idempotence, claim C3 -/


/-- C2: the interactivity cascade evaluates its signals in a fixed order with
the first decisive signal winning: for an element whose accessibility facet
exists, is not ignored, and has both the `disabled` and the `focusable` state
properties true, `isInteractive` returns false (the disabled check precedes
the focusable check), and for every element with `visible = false` it returns
false regardless of all other signals. -/
theorem C2_cascade_order (tag : String) (attributes : AttrRec) (a : EnhancedAXNode)
    (visible : Bool) (hig : a.ignored = false) (hdis : a.properties.disabled = some true)
    (hfoc : a.properties.focusable = some true) :
    isInteractive tag attributes (some a) visible = false ∧
    (∀ (tag2 : String) (attrs2 : AttrRec) (ax2 : Option EnhancedAXNode),
      isInteractive tag2 attrs2 ax2 false = false) := by
  constructor
  · cases visible with
    | false => simp [isInteractive]
    | true => simp [isInteractive, hig, hdis]
  · intro tag2 attrs2 ax2
    simp [isInteractive]

/-- C9: after `clearRefs`, the next `assignRef` call allocates the first
reference in the sequence again (`ref_1`), and no reference issued before the
clear resolves: `getBackendNodeId` returns `none` on the cleared registry. -/
theorem C9_registry_reset (b : Nat) (r : String) :
    (assignRef b clearRefs).1 = "ref_1" ∧ getBackendNodeId r clearRefs = none := by
  constructor
  · have h : alGet (clearRefs).backendToRef b = none := rfl
    rw [assignRef_of_fresh b clearRefs h]
    dsimp only
    decide
  · rfl


theorem buildChildList_pres (axL : List (Nat × CDPAXNode)) (layL : List (Nat × LayoutInfo))
    (maxD : Nat) (f : FilterMode) (ns : List CDPDOMNode) (H : ∀ c ∈ ns, BuildPres c) :
    ∀ (d : Nat) (s : RegState), RegWF s →
      RegWF (buildChildList ns axL layL d maxD f s).2 ∧
      RegExtends s (buildChildList ns axL layL d maxD f s).2 := by
  induction ns with
  | nil =>
    intro d s hs
    rw [buildChildList_nil]
    exact ⟨hs, regExtends_refl s⟩
  | cons c cs ih =>
    intro d s hs
    rw [buildChildList_cons]
    obtain ⟨hwf1, hext1⟩ := H c (List.mem_cons_self c cs) axL layL d maxD f s hs
    rcases hc : buildEnhancedTree c axL layL d maxD f s with ⟨r, s1⟩
    rw [hc] at hwf1 hext1
    obtain ⟨hwf2, hext2⟩ := ih (fun x hx => H x (List.mem_cons_of_mem c hx)) d s1 hwf1
    rcases hrest : buildChildList cs axL layL d maxD f s1 with ⟨rest, s2⟩
    rw [hrest] at hwf2 hext2
    dsimp only
    rw [hrest]
    exact ⟨hwf2, regExtends_trans hext1 hext2⟩


theorem buildShadowList_pres (axL : List (Nat × CDPAXNode)) (layL : List (Nat × LayoutInfo))
    (maxD : Nat) (f : FilterMode) (roots : List CDPDOMNode)
    (H : ∀ r ∈ roots, ∀ c ∈ r.children, BuildPres c) :
    ∀ (d : Nat) (s : RegState), RegWF s →
      RegWF (buildShadowList roots axL layL d maxD f s).2 ∧
      RegExtends s (buildShadowList roots axL layL d maxD f s).2 := by
  induction roots with
  | nil =>
    intro d s hs
    rw [buildShadowList_nil]
    exact ⟨hs, regExtends_refl s⟩
  | cons r rs ih =>
    intro d s hs
    cases r with
    | mk bid nt nn ln attrs ch sh cd =>
      rw [buildShadowList_cons]
      obtain ⟨hwf1, hext1⟩ := buildChildList_pres axL layL maxD f ch
        (fun c hc => H _ (List.mem_cons_self _ _) c hc) d s hs
      rcases hc : buildChildList ch axL layL d maxD f s with ⟨r1, s1⟩
      rw [hc] at hwf1 hext1
      obtain ⟨hwf2, hext2⟩ := ih (fun x hx c hc2 => H x (List.mem_cons_of_mem _ hx) c hc2) d s1 hwf1
      rcases hrest : buildShadowList rs axL layL d maxD f s1 with ⟨rest, s2⟩
      rw [hrest] at hwf2 hext2
      dsimp only
      rw [hrest]
      exact ⟨hwf2, regExtends_trans hext1 hext2⟩

theorem buildContentDoc_pres (axL : List (Nat × CDPAXNode)) (layL : List (Nat × LayoutInfo))
    (maxD : Nat) (f : FilterMode) (cd : Option CDPDOMNode)
    (H : ∀ c, cd = some c → BuildPres c) :
    ∀ (d : Nat) (s : RegState), RegWF s →
      RegWF (buildContentDoc cd axL layL d maxD f s).2 ∧
      RegExtends s (buildContentDoc cd axL layL d maxD f s).2 := by
  intro d s hs
  cases cd with
  | none =>
    rw [buildContentDoc_none]
    exact ⟨hs, regExtends_refl s⟩
  | some c =>
    rw [buildContentDoc_some]
    obtain ⟨hwf1, hext1⟩ := H c rfl axL layL d maxD f s hs
    rcases hc : buildEnhancedTree c axL layL d maxD f s with ⟨r, s1⟩
    rw [hc] at hwf1 hext1
    exact ⟨hwf1, hext1⟩

theorem buildEnhancedTree_pres : ∀ n, BuildPres n := by
  apply CDPDOMNode.inductionOn
  intro bid nt nn ln attrs ch sh cd ihch ihsh ihcd
  intro axL layL d maxD f s hs
  rw [buildEnhancedTree_mk]
  by_cases hd : d > maxD
  · simp only [if_pos hd]
    exact ⟨hs, regExtends_refl s⟩
  simp only [if_neg hd]
  by_cases hnt : nt ≠ 1
  · simp only [if_pos hnt]
    exact ⟨hs, regExtends_refl s⟩
  simp only [if_neg hnt]
  by_cases hskip : SKIP_TAGS.contains (computeFacets bid nn ln attrs axL layL).tag
  · simp only [if_pos hskip]
    exact ⟨hs, regExtends_refl s⟩
  simp only [if_neg hskip]
  by_cases hfilter : (f == FilterMode.interactive && !(computeFacets bid nn ln attrs axL layL).interactive) = true
  · simp only [hfilter, if_pos]
    obtain ⟨hwf1, hext1⟩ := buildChildList_pres axL layL maxD f ch ihch d s hs
    rcases h1 : buildChildList ch axL layL d maxD f s with ⟨r1, s1⟩
    rw [h1] at hwf1 hext1
    obtain ⟨hwf2, hext2⟩ := buildShadowList_pres axL layL maxD f sh ihsh d s1 hwf1
    rcases h2 : buildShadowList sh axL layL d maxD f s1 with ⟨r2, s2⟩
    rw [h2] at hwf2 hext2
    obtain ⟨hwf3, hext3⟩ := buildContentDoc_pres axL layL maxD f cd ihcd d s2 hwf2
    rcases h3 : buildContentDoc cd axL layL d maxD f s2 with ⟨r3, s3⟩
    rw [h3] at hwf3 hext3
    exact ⟨hwf3, regExtends_trans hext1 (regExtends_trans hext2 hext3)⟩
  · simp only [hfilter]
    simp only [Bool.false_eq_true, if_false]
    have hwfA := assignRef_WF bid s hs
    have hextA := assignRef_extends bid s hs
    rcases hA : assignRef bid s with ⟨ref, s1⟩
    rw [hA] at hwfA hextA
    by_cases hlt : d < maxD
    · simp only [if_pos hlt]
      obtain ⟨hwf1, hext1⟩ := buildChildList_pres axL layL maxD f ch ihch (d + 1) s1 hwfA
      rcases h1 : buildChildList ch axL layL (d + 1) maxD f s1 with ⟨r1, sa⟩
      rw [h1] at hwf1 hext1
      obtain ⟨hwf2, hext2⟩ := buildShadowList_pres axL layL maxD f sh ihsh (d + 1) sa hwf1
      rcases h2 : buildShadowList sh axL layL (d + 1) maxD f sa with ⟨r2, sb⟩
      rw [h2] at hwf2 hext2
      obtain ⟨hwf3, hext3⟩ := buildContentDoc_pres axL layL maxD f cd ihcd (d + 1) sb hwf2
      rcases h3 : buildContentDoc cd axL layL (d + 1) maxD f sb with ⟨r3, sc⟩
      rw [h3] at hwf3 hext3
      exact ⟨hwf3,
        regExtends_trans hextA (regExtends_trans hext1 (regExtends_trans hext2 hext3))⟩
    · simp only [if_neg hlt]
      exact ⟨hwfA, hextA⟩


/-- The reference returned by `assignRef` under the invariant is non-empty. -/
theorem assignRef_ref_truthy (b : Nat) (s : RegState) (hs : RegWF s) :
    (assignRef b s).1 ≠ "" := by
  cases h : alGet s.backendToRef b with
  | some r =>
    rw [assignRef_of_existing b s r h (regWF_truthy s hs b r h)]
    exact regWF_truthy s hs b r h
  | none =>
    rw [assignRef_of_fresh b s h]
    exact refName_ne_empty _

theorem buildChildList_idem (axL : List (Nat × CDPAXNode)) (layL : List (Nat × LayoutInfo))
    (maxD : Nat) (f : FilterMode) (ns : List CDPDOMNode)
    (H : ∀ c ∈ ns, BuildIdem c ∧ BuildPres c) :
    ∀ (d : Nat) (s T : RegState), RegWF s →
      RegExtends (buildChildList ns axL layL d maxD f s).2 T →
      buildChildList ns axL layL d maxD f T = ((buildChildList ns axL layL d maxD f s).1, T) := by
  induction ns with
  | nil =>
    intro d s T hs hT
    rw [buildChildList_nil, buildChildList_nil]
  | cons c cs ih =>
    intro d s T hs hT
    rw [buildChildList_cons] at hT ⊢
    rw [buildChildList_cons]
    rcases h1 : buildEnhancedTree c axL layL d maxD f s with ⟨r, s1⟩
    rw [h1] at hT
    dsimp only at hT
    rcases hrest : buildChildList cs axL layL d maxD f s1 with ⟨rest, s2⟩
    rw [hrest] at hT
    dsimp only at hT
    have hwfs1 : RegWF s1 := by
      have h := (H c (List.mem_cons_self c cs)).2 axL layL d maxD f s hs
      rw [h1] at h
      exact h.1
    have hs2ext : RegExtends s1 s2 := by
      have h := (buildChildList_pres axL layL maxD f cs
        (fun x hx => (H x (List.mem_cons_of_mem c hx)).2) d s1 hwfs1)
      rw [hrest] at h
      exact h.2
    have hTc : RegExtends (buildEnhancedTree c axL layL d maxD f s).2 T := by
      rw [h1]
      exact regExtends_trans hs2ext hT
    have hc2 := (H c (List.mem_cons_self c cs)).1 axL layL d maxD f s T hs hTc
    rw [h1] at hc2
    dsimp only at hc2
    rw [hc2]
    dsimp only
    have hrest2 := ih (fun x hx => H x (List.mem_cons_of_mem c hx)) d s1 T hwfs1
      (by rw [hrest]; exact hT)
    rw [hrest] at hrest2
    dsimp only at hrest2
    rw [hrest2]
    rw [hrest]


theorem buildShadowList_idem (axL : List (Nat × CDPAXNode)) (layL : List (Nat × LayoutInfo))
    (maxD : Nat) (f : FilterMode) (roots : List CDPDOMNode)
    (H : ∀ r ∈ roots, ∀ c ∈ r.children, BuildIdem c ∧ BuildPres c) :
    ∀ (d : Nat) (s T : RegState), RegWF s →
      RegExtends (buildShadowList roots axL layL d maxD f s).2 T →
      buildShadowList roots axL layL d maxD f T =
        ((buildShadowList roots axL layL d maxD f s).1, T) := by
  induction roots with
  | nil =>
    intro d s T hs hT
    rw [buildShadowList_nil, buildShadowList_nil]
  | cons root rs ih =>
    intro d s T hs hT
    cases root with
    | mk bid nt nn ln attrs ch sh cd =>
      rw [buildShadowList_cons] at hT ⊢
      rw [buildShadowList_cons]
      rcases h1 : buildChildList ch axL layL d maxD f s with ⟨r1, s1⟩
      rw [h1] at hT
      dsimp only at hT
      rcases hrest : buildShadowList rs axL layL d maxD f s1 with ⟨rest, s2⟩
      rw [hrest] at hT
      dsimp only at hT
      have hch : ∀ c ∈ ch, BuildIdem c ∧ BuildPres c :=
        fun c hc => H _ (List.mem_cons_self _ _) c hc
      have hwfs1 : RegWF s1 := by
        have h := buildChildList_pres axL layL maxD f ch (fun c hc => (hch c hc).2) d s hs
        rw [h1] at h
        exact h.1
      have hs2ext : RegExtends s1 s2 := by
        have h := buildShadowList_pres axL layL maxD f rs
          (fun x hx c hc2 => (H x (List.mem_cons_of_mem _ hx) c hc2).2) d s1 hwfs1
        rw [hrest] at h
        exact h.2
      have hc2 := buildChildList_idem axL layL maxD f ch hch d s T hs
        (by rw [h1]; exact regExtends_trans hs2ext hT)
      rw [h1] at hc2
      dsimp only at hc2
      rw [hc2]
      dsimp only
      have hrest2 := ih (fun x hx c hc2 => H x (List.mem_cons_of_mem _ hx) c hc2) d s1 T hwfs1
        (by rw [hrest]; exact hT)
      rw [hrest] at hrest2
      dsimp only at hrest2
      rw [hrest2]
      rw [hrest]

theorem buildContentDoc_idem (axL : List (Nat × CDPAXNode)) (layL : List (Nat × LayoutInfo))
    (maxD : Nat) (f : FilterMode) (cd : Option CDPDOMNode)
    (H : ∀ c, cd = some c → BuildIdem c ∧ BuildPres c) :
    ∀ (d : Nat) (s T : RegState), RegWF s →
      RegExtends (buildContentDoc cd axL layL d maxD f s).2 T →
      buildContentDoc cd axL layL d maxD f T =
        ((buildContentDoc cd axL layL d maxD f s).1, T) := by
  intro d s T hs hT
  cases cd with
  | none => rw [buildContentDoc_none, buildContentDoc_none]
  | some c =>
    rw [buildContentDoc_some] at hT ⊢
    rw [buildContentDoc_some]
    rcases h1 : buildEnhancedTree c axL layL d maxD f s with ⟨r, s1⟩
    rw [h1] at hT
    dsimp only at hT
    have hc2 := (H c rfl).1 axL layL d maxD f s T hs (by rw [h1]; exact hT)
    rw [h1] at hc2
    dsimp only at hc2
    rw [hc2]


theorem buildEnhancedTree_idem : ∀ n, BuildIdem n := by
  have main : ∀ n, BuildIdem n ∧ BuildPres n := by
    apply CDPDOMNode.inductionOn (motive := fun n => BuildIdem n ∧ BuildPres n)
    intro bid nt nn ln attrs ch sh cd ihch ihsh ihcd
    refine ⟨?_, ?_⟩
    case refine_2 =>
      -- preservation, re-derived from the standalone theorem
      exact buildEnhancedTree_pres _
    case refine_1 =>
      intro axL layL d maxD f s T hs hT
      rw [buildEnhancedTree_mk] at hT ⊢
      rw [buildEnhancedTree_mk]
      by_cases hd : d > maxD
      · simp only [if_pos hd] at hT ⊢
      · simp only [if_neg hd] at hT ⊢
        by_cases hnt : nt ≠ 1
        · simp only [if_pos hnt] at hT ⊢
        · simp only [if_neg hnt] at hT ⊢
          by_cases hskip : SKIP_TAGS.contains (computeFacets bid nn ln attrs axL layL).tag
          · simp only [if_pos hskip] at hT ⊢
          · simp only [if_neg hskip] at hT ⊢
            by_cases hfilter : (f == FilterMode.interactive &&
                !(computeFacets bid nn ln attrs axL layL).interactive) = true
            · simp only [hfilter, if_pos] at hT ⊢
              rcases h1 : buildChildList ch axL layL d maxD f s with ⟨r1, s1⟩
              rw [h1] at hT
              dsimp only at hT
              rcases h2 : buildShadowList sh axL layL d maxD f s1 with ⟨r2, s2⟩
              rw [h2] at hT
              dsimp only at hT
              rcases h3 : buildContentDoc cd axL layL d maxD f s2 with ⟨r3, s3⟩
              rw [h3] at hT
              dsimp only at hT
              -- hT : RegExtends (spliceResult (r1 ++ r2 ++ r3) s3).2 T, i.e. s3 extends into T
              have hT3 : RegExtends s3 T := hT
              have hwf1 : RegWF s1 := by
                have h := buildChildList_pres axL layL maxD f ch (fun c hc => (ihch c hc).2) d s hs
                rw [h1] at h; exact h.1
              have hwf2 : RegWF s2 := by
                have h := buildShadowList_pres axL layL maxD f sh
                  (fun x hx c hc => (ihsh x hx c hc).2) d s1 hwf1
                rw [h2] at h; exact h.1
              have hext2 : RegExtends s1 s2 := by
                have h := buildShadowList_pres axL layL maxD f sh
                  (fun x hx c hc => (ihsh x hx c hc).2) d s1 hwf1
                rw [h2] at h; exact h.2
              have hext3 : RegExtends s2 s3 := by
                have h := buildContentDoc_pres axL layL maxD f cd
                  (fun c hc => (ihcd c hc).2) d s2 hwf2
                rw [h3] at h; exact h.2
              have hc1 := buildChildList_idem axL layL maxD f ch ihch d s T hs
                (by rw [h1]
                    exact regExtends_trans hext2 (regExtends_trans hext3 hT3))
              rw [h1] at hc1
              dsimp only at hc1
              rw [hc1]
              dsimp only
              have hc2 := buildShadowList_idem axL layL maxD f sh ihsh d s1 T hwf1
                (by rw [h2]; exact regExtends_trans hext3 hT3)
              rw [h2] at hc2
              dsimp only at hc2
              rw [hc2]
              dsimp only
              have hc3 := buildContentDoc_idem axL layL maxD f cd ihcd d s2 T hwf2
                (by rw [h3]; exact hT3)
              rw [h3] at hc3
              dsimp only at hc3
              rw [hc3]
              simp [spliceResult]
            · simp only [hfilter] at hT ⊢
              simp only [Bool.false_eq_true, if_false] at hT ⊢
              rcases hA : assignRef bid s with ⟨ref, s1⟩
              rw [hA] at hT
              dsimp only at hT
              have hwfs1 : RegWF s1 := by
                have h := assignRef_WF bid s hs
                rw [hA] at h; exact h
              have hlook : alGet s1.backendToRef bid = some ref := by
                have h := assignRef_lookup_after bid s hs
                rw [hA] at h; exact h
              have htru : ref ≠ "" := by
                have h := assignRef_ref_truthy bid s hs
                rw [hA] at h; exact h
              by_cases hlt : d < maxD
              · simp only [if_pos hlt] at hT ⊢
                rcases h1 : buildChildList ch axL layL (d + 1) maxD f s1 with ⟨r1, sa⟩
                rw [h1] at hT
                dsimp only at hT
                rcases h2 : buildShadowList sh axL layL (d + 1) maxD f sa with ⟨r2, sb⟩
                rw [h2] at hT
                dsimp only at hT
                rcases h3 : buildContentDoc cd axL layL (d + 1) maxD f sb with ⟨r3, sc⟩
                rw [h3] at hT
                dsimp only at hT
                have hTsc : RegExtends sc T := hT
                have hwfa : RegWF sa := by
                  have h := buildChildList_pres axL layL maxD f ch
                    (fun c hc => (ihch c hc).2) (d + 1) s1 hwfs1
                  rw [h1] at h; exact h.1
                have hwfb : RegWF sb := by
                  have h := buildShadowList_pres axL layL maxD f sh
                    (fun x hx c hc => (ihsh x hx c hc).2) (d + 1) sa hwfa
                  rw [h2] at h; exact h.1
                have hexta : RegExtends s1 sa := by
                  have h := buildChildList_pres axL layL maxD f ch
                    (fun c hc => (ihch c hc).2) (d + 1) s1 hwfs1
                  rw [h1] at h; exact h.2
                have hextb : RegExtends sa sb := by
                  have h := buildShadowList_pres axL layL maxD f sh
                    (fun x hx c hc => (ihsh x hx c hc).2) (d + 1) sa hwfa
                  rw [h2] at h; exact h.2
                have hextc : RegExtends sb sc := by
                  have h := buildContentDoc_pres axL layL maxD f cd
                    (fun c hc => (ihcd c hc).2) (d + 1) sb hwfb
                  rw [h3] at h; exact h.2
                -- the second pass finds the reference already bound in T
                have hlookT : alGet T.backendToRef bid = some ref :=
                  hTsc bid ref (hextc bid ref (hextb bid ref (hexta bid ref hlook)))
                rw [assignRef_of_existing bid T ref hlookT htru]
                dsimp only
                have hc1 := buildChildList_idem axL layL maxD f ch ihch (d + 1) s1 T hwfs1
                  (by rw [h1]
                      exact regExtends_trans hextb (regExtends_trans hextc hTsc))
                rw [h1] at hc1
                dsimp only at hc1
                rw [hc1]
                dsimp only
                have hc2 := buildShadowList_idem axL layL maxD f sh ihsh (d + 1) sa T hwfa
                  (by rw [h2]; exact regExtends_trans hextc hTsc)
                rw [h2] at hc2
                dsimp only at hc2
                rw [hc2]
                dsimp only
                have hc3 := buildContentDoc_idem axL layL maxD f cd ihcd (d + 1) sb T hwfb
                  (by rw [h3]; exact hTsc)
                rw [h3] at hc3
                dsimp only at hc3
                rw [hc3]
              · simp only [if_neg hlt] at hT ⊢
                have hlookT : alGet T.backendToRef bid = some ref := hT bid ref hlook
                rw [assignRef_of_existing bid T ref hlookT htru]
  exact fun n => (main n).1


/-- C3: within one registry lifetime, `assignRef` returns the same reference
for the same backend node id no matter which other assignments happen in
between, two distinct backend node ids never receive the same reference, and
rerunning the merge without clearing the registry (options keep
`clearRefsFirst` false) reproduces the first run's tree and final state, so
identical structural ids keep identical references. -/
theorem C3_reference_registry (s : RegState) (hs : RegWF s) (b b₂ : Nat) (bs : List Nat)
    (hne : b ≠ b₂) (fr : TreeFetchResult) (opts : MergeOptions) (vw vh : Int)
    (hcl : opts.clearRefsFirst = false) :
    (assignRef b (assignRefs bs (assignRef b s).2)).1 = (assignRef b s).1 ∧
    (assignRef b₂ (assignRef b s).2).1 ≠ (assignRef b s).1 ∧
    mergeToEnhancedTree fr opts vw vh ((mergeToEnhancedTree fr opts vw vh s).2) =
      ((mergeToEnhancedTree fr opts vw vh s).1, (mergeToEnhancedTree fr opts vw vh s).2) := by
  have hwf1 : RegWF (assignRef b s).2 := assignRef_WF b s hs
  have hlook1 : alGet (assignRef b s).2.backendToRef b = some (assignRef b s).1 :=
    assignRef_lookup_after b s hs
  have htru1 : (assignRef b s).1 ≠ "" := assignRef_ref_truthy b s hs
  refine ⟨?_, ?_, ?_⟩
  · obtain ⟨hwfS, hextS⟩ := assignRefs_WF_extends bs (assignRef b s).2 hwf1
    have hlookS := hextS b (assignRef b s).1 hlook1
    rw [assignRef_of_existing b (assignRefs bs (assignRef b s).2) (assignRef b s).1 hlookS htru1]
  · intro heq
    cases h2 : alGet (assignRef b s).2.backendToRef b₂ with
    | some r₂ =>
      have htru₂ := regWF_truthy _ hwf1 b₂ r₂ h2
      rw [assignRef_of_existing b₂ (assignRef b s).2 r₂ h2 htru₂] at heq
      dsimp only at heq
      rw [heq] at h2
      exact hne (regWF_inj _ hwf1 b b₂ _ hlook1 h2)
    | none =>
      rw [assignRef_of_fresh b₂ (assignRef b s).2 h2] at heq
      dsimp only at heq
      obtain ⟨k, hk1, hk2, hk3⟩ := regWF_shape _ hwf1 b _ hlook1
      have : (assignRef b s).2.refCounter + 1 = k := refName_inj (heq.trans hk3)
      omega
  · simp only [mergeToEnhancedTree, hcl, if_false]
    exact buildEnhancedTree_idem (resolveBody fr.dom) _ _ 0 opts.depth opts.filter _ _ hs
      (regExtends_refl _)

theorem C2_cascade_order_witness :
    isInteractive "div" []
      (some ⟨"7", false, "button", "", "",
        { disabled := some true, focusable := some true }⟩) true = false :=
  (C2_cascade_order "div" []
    ⟨"7", false, "button", "", "", { disabled := some true, focusable := some true }⟩
    true rfl rfl rfl).1

theorem C3_reference_registry_witness :
    (assignRef 1 (assignRefs [3] (assignRef 1 clearRefs).2)).1 = (assignRef 1 clearRefs).1 ∧
    (assignRef 2 (assignRef 1 clearRefs).2).1 ≠ (assignRef 1 clearRefs).1 ∧
    mergeToEnhancedTree
        { dom := CDPDOMNode.mk 1 1 "BODY" "body" none [] [] none,
          snapshot := { documents := [], strings := [] }, axTrees := [],
          frameTree := .mk "" [] }
        { depth := 3, filter := .all, clearRefsFirst := false } 0 0
        ((mergeToEnhancedTree
          { dom := CDPDOMNode.mk 1 1 "BODY" "body" none [] [] none,
            snapshot := { documents := [], strings := [] }, axTrees := [],
            frameTree := .mk "" [] }
          { depth := 3, filter := .all, clearRefsFirst := false } 0 0 clearRefs).2) =
      ((mergeToEnhancedTree
          { dom := CDPDOMNode.mk 1 1 "BODY" "body" none [] [] none,
            snapshot := { documents := [], strings := [] }, axTrees := [],
            frameTree := .mk "" [] }
          { depth := 3, filter := .all, clearRefsFirst := false } 0 0 clearRefs).1,
        (mergeToEnhancedTree
          { dom := CDPDOMNode.mk 1 1 "BODY" "body" none [] [] none,
            snapshot := { documents := [], strings := [] }, axTrees := [],
            frameTree := .mk "" [] }
          { depth := 3, filter := .all, clearRefsFirst := false } 0 0 clearRefs).2) :=
  C3_reference_registry clearRefs regWF_clearRefs 1 2 [3] (by decide)
    { dom := CDPDOMNode.mk 1 1 "BODY" "body" none [] [] none,
      snapshot := { documents := [], strings := [] }, axTrees := [],
      frameTree := .mk "" [] }
    { depth := 3, filter := .all, clearRefsFirst := false } 0 0 rfl

/-! ## Claims C7 and C8 -/

/-- C7: an anchor element without an `href` attribute is not auto-interactive
through the tag rule but falls through to the attribute checks (`onclick`,
`onmousedown`, a non-"-1" `tabindex`, `contenteditable="true"`), while a
visible anchor with an `href` and no accessibility facet is classified
interactive and the produced element carries the `href`. -/
theorem C7_anchor_href (attrs : AttrRec) (u : String)
    (bid : Nat) (nn : String) (attrsArr : Option (List String))
    (ch sh : List CDPDOMNode) (cd : Option CDPDOMNode)
    (axL : List (Nat × CDPAXNode)) (layL : List (Nat × LayoutInfo))
    (d maxD : Nat) (f : FilterMode) (s : RegState)
    (hno : alGet attrs "href" = none)
    (hd : d ≤ maxD)
    (hax : alGet axL bid = none)
    (hvis : ((alGet layL bid).map LayoutInfo.visible).getD true = true)
    (hhref : alGet (parseAttributes attrsArr) "href" = some u)
    (hu : u ≠ "") :
    (isInteractive "a" attrs none true =
      (strTruthy (alGet attrs "onclick") || strTruthy (alGet attrs "onmousedown") ||
       (strTruthy (alGet attrs "tabindex") && (alGet attrs "tabindex" != some "-1")) ||
       (alGet attrs "contenteditable" == some "true"))) ∧
    (∃ (e : EEData) (ch' : List EnhancedElement) (s' : RegState),
      buildEnhancedTree (.mk bid 1 nn "a" attrsArr ch sh cd) axL layL d maxD f s =
        (.one (.mk e ch'), s') ∧ e.interactive = true ∧ e.href = some u) := by
  constructor
  · simp only [isInteractive, hno, (show strTruthy none = false from rfl)]
    generalize strTruthy (alGet attrs "onclick") = b1
    generalize strTruthy (alGet attrs "onmousedown") = b2
    generalize (strTruthy (alGet attrs "tabindex") && (alGet attrs "tabindex" != some "-1")) = b3
    generalize (alGet attrs "contenteditable" == some "true") = b4
    cases b1 <;> cases b2 <;> cases b3 <;> cases b4 <;> simp
  · have hd' : ¬ d > maxD := by omega
    have hstr : strToLower "a" = "a" := by decide
    have htag : tagOf "a" nn = "a" := by simp [tagOf, hstr]
    have hint : isInteractive "a" (parseAttributes attrsArr)
        ((alGet axL bid).map enhanceAXNode) (((alGet layL bid).map LayoutInfo.visible).getD true)
        = true := by
      rw [hax, hvis]
      simp only [isInteractive, Option.map_none]
      simp [hhref, strTruthy, hu]
      left
      decide
    have hfc_tag : (computeFacets bid nn "a" attrsArr axL layL).tag = "a" := by
      simp [computeFacets, htag]
    have hfc_int : (computeFacets bid nn "a" attrsArr axL layL).interactive = true := by
      simp only [computeFacets, htag]
      exact hint
    have hfc_attrs : (computeFacets bid nn "a" attrsArr axL layL).attributes =
        parseAttributes attrsArr := by
      simp [computeFacets]
    rw [buildEnhancedTree_mk]
    rw [if_neg hd']
    rw [if_neg (by simp : ¬ (1 : Nat) ≠ 1)]
    dsimp only
    rw [hfc_tag]
    rw [if_neg (by decide : ¬ SKIP_TAGS.contains "a" = true)]
    rw [hfc_int]
    simp only [Bool.not_true, Bool.and_false, Bool.false_eq_true, if_false]
    rcases hA : assignRef bid s with ⟨ref, s1⟩
    by_cases hlt : d < maxD
    · simp only [if_pos hlt]
      rcases h1 : buildChildList ch axL layL (d + 1) maxD f s1 with ⟨r1, sa⟩
      rcases h2 : buildShadowList sh axL layL (d + 1) maxD f sa with ⟨r2, sb⟩
      rcases h3 : buildContentDoc cd axL layL (d + 1) maxD f sb with ⟨r3, sc⟩
      refine ⟨mkEEData bid 1 (computeFacets bid nn "a" attrsArr axL layL) ref, r1 ++ r2 ++ r3, sc,
        rfl, ?_, ?_⟩
      · simp [mkEEData, hfc_int]
      · simp [mkEEData, hfc_tag, hfc_attrs, hhref, strTruthy, hu]
    · simp only [if_neg hlt]
      refine ⟨mkEEData bid 1 (computeFacets bid nn "a" attrsArr axL layL) ref, [], s1,
        rfl, ?_, ?_⟩
      · simp [mkEEData, hfc_int]
      · simp [mkEEData, hfc_tag, hfc_attrs, hhref, strTruthy, hu]

theorem C7_anchor_href_witness :
    (isInteractive "a" [] none true =
      (strTruthy (alGet [] "onclick") || strTruthy (alGet [] "onmousedown") ||
       (strTruthy (alGet [] "tabindex") && (alGet ([] : AttrRec) "tabindex" != some "-1")) ||
       (alGet ([] : AttrRec) "contenteditable" == some "true"))) ∧
    (∃ (e : EEData) (ch' : List EnhancedElement) (s' : RegState),
      buildEnhancedTree (.mk 1 1 "A" "a" (some ["href", "/about"]) [] [] none) [] [] 0 1 .all
          clearRefs =
        (.one (.mk e ch'), s') ∧ e.interactive = true ∧ e.href = some "/about") :=
  C7_anchor_href [] "/about" 1 "A" (some ["href", "/about"]) [] [] none [] [] 0 1 .all clearRefs
    rfl (by decide) rfl rfl (by decide) (by decide)

/-- C8: modelling the scheduler as explicit transitions, after an attach at
time `t` the auto-release timer is scheduled for `t` plus the 30-second
window; if the full window elapses with no further session-managed calls,
firing the timer detaches the session, while a call before the window elapses
reschedules the timer and keeps the attachment; and a fired timer performs no
detach when the elapsed time since the last activity is below the window. -/
theorem C8_auto_detach (tabId t t2 now now2 : Nat) (st st2 : SessionState)
    (hfire : t + AUTO_DETACH_TIMEOUT ≤ now)
    (ht2 : t2 < t + AUTO_DETACH_TIMEOUT)
    (hearly : now2 - ((alGet st2.lastActivity tabId).getD 0) < AUTO_DETACH_TIMEOUT) :
    (alGet (ensureSession tabId t st).detachTimers tabId = some (t + AUTO_DETACH_TIMEOUT) ∧
     isAttached tabId (ensureSession tabId t st) = true ∧
     isAttached tabId (autoDetach tabId now (ensureSession tabId t st)) = false) ∧
    (alGet (touchSession tabId t2 (ensureSession tabId t st)).detachTimers tabId =
       some (t2 + AUTO_DETACH_TIMEOUT) ∧
     isAttached tabId (touchSession tabId t2 (ensureSession tabId t st)) = true) ∧
    (autoDetach tabId now2 st2).attached = st2.attached := by
  have hatt : isAttached tabId (ensureSession tabId t st) = true := by
    by_cases h : tabId ∈ st.attached
    · simp [ensureSession, touchSession, isAttached, h]
    · simp [ensureSession, touchSession, isAttached, h]
  have htimer : alGet (ensureSession tabId t st).detachTimers tabId =
      some (t + AUTO_DETACH_TIMEOUT) := by
    unfold ensureSession touchSession
    exact alGet_alSet_self _ _ _
  have hlast : alGet (ensureSession tabId t st).lastActivity tabId = some t := by
    unfold ensureSession touchSession
    exact alGet_alSet_self _ _ _
  refine ⟨⟨htimer, hatt, ?_⟩, ⟨?_, ?_⟩, ?_⟩
  · have hc1 : AUTO_DETACH_TIMEOUT ≤ now - t := by omega
    simp only [autoDetach, hlast, Option.getD_some, hc1, hatt, decide_True, Bool.and_self,
      Bool.and_true, if_true]
    simp [isAttached, List.elem_iff, List.mem_filter]
  · unfold touchSession
    exact alGet_alSet_self _ _ _
  · simpa [touchSession, isAttached] using hatt
  · have hc2 : ¬ (AUTO_DETACH_TIMEOUT ≤ now2 - (alGet st2.lastActivity tabId).getD 0) := by
      omega
    simp [autoDetach, hc2]

theorem C8_auto_detach_witness :
    (alGet (ensureSession 1 0 ⟨[], [], []⟩).detachTimers 1 = some (0 + AUTO_DETACH_TIMEOUT) ∧
     isAttached 1 (ensureSession 1 0 ⟨[], [], []⟩) = true ∧
     isAttached 1 (autoDetach 1 30000 (ensureSession 1 0 ⟨[], [], []⟩)) = false) ∧
    (alGet (touchSession 1 100 (ensureSession 1 0 ⟨[], [], []⟩)).detachTimers 1 =
       some (100 + AUTO_DETACH_TIMEOUT) ∧
     isAttached 1 (touchSession 1 100 (ensureSession 1 0 ⟨[], [], []⟩)) = true) ∧
    (autoDetach 1 50 ⟨[(1, 40)], [], [1]⟩).attached = SessionState.attached ⟨[(1, 40)], [], [1]⟩ :=
  C8_auto_detach 1 0 100 30000 50 ⟨[], [], []⟩ ⟨[(1, 40)], [], [1]⟩ (by decide) (by decide)
    (by decide)


/-! ## Flatten views, per-element fields and layout characterization -/

theorem flattenL_nil : flattenL [] = [] := by rw [flattenL.eq_def]

theorem flattenL_cons (e : EnhancedElement) (es : List EnhancedElement) :
    flattenL (e :: es) = flattenE e ++ flattenL es := by rw [flattenL.eq_def]

theorem flattenE_mk (d : EEData) (ch : List EnhancedElement) :
    flattenE (.mk d ch) = d :: flattenL ch := by rw [flattenE.eq_def]

theorem flattenL_append (xs ys : List EnhancedElement) :
    flattenL (xs ++ ys) = flattenL xs ++ flattenL ys := by
  induction xs with
  | nil => simp [flattenL_nil]
  | cons e es ih => simp [flattenL_cons, ih]

theorem flatten_spliceResult (l : List EnhancedElement) (s : RegState) :
    (spliceResult l s).1.flatten = flattenL l := by
  by_cases h : l.isEmpty
  · have : l = [] := List.isEmpty_iff.mp h
    subst this
    simp [spliceResult, BuildResult.flatten, BuildResult.toList, flattenL_nil]
  · simp [spliceResult, h, BuildResult.flatten, BuildResult.toList]

theorem flatten_toList (r : BuildResult) : flattenL r.toList = r.flatten := rfl

theorem mkEEData_fieldOK (bid nt : Nat) (nn ln : String) (attrs : Option (List String))
    (axL : List (Nat × CDPAXNode)) (layL : List (Nat × LayoutInfo)) (ref : String) :
    EEFieldOK axL layL (mkEEData bid nt (computeFacets bid nn ln attrs axL layL) ref) := by
  refine ⟨?_, ?_, ?_, ?_⟩
  · simp [mkEEData, computeFacets]
  · simp [mkEEData, computeFacets]
  · simp [mkEEData, computeFacets]
  · intro hpw
    simp only [mkEEData] at hpw ⊢
    simp only [hpw]
    simp


theorem buildChildList_fields (axL : List (Nat × CDPAXNode)) (layL : List (Nat × LayoutInfo))
    (maxD : Nat) (f : FilterMode) (ns : List CDPDOMNode) (H : ∀ c ∈ ns, FieldsOK c) :
    ∀ (d : Nat) (s : RegState),
      ∀ dd ∈ flattenL (buildChildList ns axL layL d maxD f s).1, EEFieldOK axL layL dd := by
  induction ns with
  | nil =>
    intro d s dd hdd
    rw [buildChildList_nil] at hdd
    simp [flattenL_nil] at hdd
  | cons c cs ih =>
    intro d s dd hdd
    rw [buildChildList_cons] at hdd
    rcases hc : buildEnhancedTree c axL layL d maxD f s with ⟨r, s1⟩
    rw [hc] at hdd
    dsimp only at hdd
    rcases hrest : buildChildList cs axL layL d maxD f s1 with ⟨rest, s2⟩
    rw [hrest] at hdd
    dsimp only at hdd
    rw [flattenL_append] at hdd
    rcases List.mem_append.mp hdd with h | h
    · have := H c (List.mem_cons_self c cs) axL layL d maxD f s
      rw [hc] at this
      exact this dd (by rw [flatten_toList] at h; exact h)
    · have := ih (fun x hx => H x (List.mem_cons_of_mem c hx)) d s1
      rw [hrest] at this
      exact this dd h

theorem buildShadowList_fields (axL : List (Nat × CDPAXNode)) (layL : List (Nat × LayoutInfo))
    (maxD : Nat) (f : FilterMode) (roots : List CDPDOMNode)
    (H : ∀ r ∈ roots, ∀ c ∈ r.children, FieldsOK c) :
    ∀ (d : Nat) (s : RegState),
      ∀ dd ∈ flattenL (buildShadowList roots axL layL d maxD f s).1, EEFieldOK axL layL dd := by
  induction roots with
  | nil =>
    intro d s dd hdd
    rw [buildShadowList_nil] at hdd
    simp [flattenL_nil] at hdd
  | cons root rs ih =>
    intro d s dd hdd
    cases root with
    | mk bid nt nn ln attrs ch sh cd =>
      rw [buildShadowList_cons] at hdd
      rcases hc : buildChildList ch axL layL d maxD f s with ⟨r1, s1⟩
      rw [hc] at hdd
      dsimp only at hdd
      rcases hrest : buildShadowList rs axL layL d maxD f s1 with ⟨rest, s2⟩
      rw [hrest] at hdd
      dsimp only at hdd
      rw [flattenL_append] at hdd
      rcases List.mem_append.mp hdd with h | h
      · have := buildChildList_fields axL layL maxD f ch
          (fun c hc2 => H _ (List.mem_cons_self _ _) c hc2) d s
        rw [hc] at this
        exact this dd h
      · have := ih (fun x hx c hc2 => H x (List.mem_cons_of_mem _ hx) c hc2) d s1
        rw [hrest] at this
        exact this dd h

theorem buildContentDoc_fields (axL : List (Nat × CDPAXNode)) (layL : List (Nat × LayoutInfo))
    (maxD : Nat) (f : FilterMode) (cd : Option CDPDOMNode)
    (H : ∀ c, cd = some c → FieldsOK c) :
    ∀ (d : Nat) (s : RegState),
      ∀ dd ∈ flattenL (buildContentDoc cd axL layL d maxD f s).1, EEFieldOK axL layL dd := by
  intro d s dd hdd
  cases cd with
  | none =>
    rw [buildContentDoc_none] at hdd
    simp [flattenL_nil] at hdd
  | some c =>
    rw [buildContentDoc_some] at hdd
    rcases hc : buildEnhancedTree c axL layL d maxD f s with ⟨r, s1⟩
    rw [hc] at hdd
    dsimp only at hdd
    have := H c rfl axL layL d maxD f s
    rw [hc] at this
    exact this dd (by rw [flatten_toList] at hdd; exact hdd)

theorem buildEnhancedTree_fields : ∀ n, FieldsOK n := by
  apply CDPDOMNode.inductionOn
  intro bid nt nn ln attrs ch sh cd ihch ihsh ihcd
  intro axL layL d maxD f s dd hdd
  rw [buildEnhancedTree_mk] at hdd
  by_cases hd : d > maxD
  · simp only [if_pos hd] at hdd
    simp [BuildResult.flatten, BuildResult.toList, flattenL_nil] at hdd
  simp only [if_neg hd] at hdd
  by_cases hnt : nt ≠ 1
  · simp only [if_pos hnt] at hdd
    simp [BuildResult.flatten, BuildResult.toList, flattenL_nil] at hdd
  simp only [if_neg hnt] at hdd
  by_cases hskip : SKIP_TAGS.contains (computeFacets bid nn ln attrs axL layL).tag
  · simp only [if_pos hskip] at hdd
    simp [BuildResult.flatten, BuildResult.toList, flattenL_nil] at hdd
  simp only [if_neg hskip] at hdd
  by_cases hfilter : (f == FilterMode.interactive &&
      !(computeFacets bid nn ln attrs axL layL).interactive) = true
  · simp only [hfilter, if_pos] at hdd
    rcases h1 : buildChildList ch axL layL d maxD f s with ⟨r1, s1⟩
    rw [h1] at hdd
    dsimp only at hdd
    rcases h2 : buildShadowList sh axL layL d maxD f s1 with ⟨r2, s2⟩
    rw [h2] at hdd
    dsimp only at hdd
    rcases h3 : buildContentDoc cd axL layL d maxD f s2 with ⟨r3, s3⟩
    rw [h3] at hdd
    dsimp only at hdd
    rw [flatten_spliceResult, flattenL_append, flattenL_append] at hdd
    rcases List.mem_append.mp hdd with h | h
    · rcases List.mem_append.mp h with h' | h'
      · have := buildChildList_fields axL layL maxD f ch ihch d s
        rw [h1] at this
        exact this dd h'
      · have := buildShadowList_fields axL layL maxD f sh ihsh d s1
        rw [h2] at this
        exact this dd h'
    · have := buildContentDoc_fields axL layL maxD f cd ihcd d s2
      rw [h3] at this
      exact this dd h
  · simp only [hfilter] at hdd
    simp only [Bool.false_eq_true, if_false] at hdd
    rcases hA : assignRef bid s with ⟨ref, s1⟩
    rw [hA] at hdd
    dsimp only at hdd
    by_cases hlt : d < maxD
    · simp only [if_pos hlt] at hdd
      rcases h1 : buildChildList ch axL layL (d + 1) maxD f s1 with ⟨r1, sa⟩
      rw [h1] at hdd
      dsimp only at hdd
      rcases h2 : buildShadowList sh axL layL (d + 1) maxD f sa with ⟨r2, sb⟩
      rw [h2] at hdd
      dsimp only at hdd
      rcases h3 : buildContentDoc cd axL layL (d + 1) maxD f sb with ⟨r3, sc⟩
      rw [h3] at hdd
      dsimp only at hdd
      simp only [BuildResult.flatten, BuildResult.toList, flattenL_cons, flattenL_nil,
        flattenE_mk, List.append_nil] at hdd
      rcases List.mem_cons.mp hdd with h | h
      · subst h
        exact mkEEData_fieldOK bid nt nn ln attrs axL layL ref
      · rw [flattenL_append, flattenL_append] at h
        rcases List.mem_append.mp h with h' | h'
        · rcases List.mem_append.mp h' with h'' | h''
          · have := buildChildList_fields axL layL maxD f ch ihch (d + 1) s1
            rw [h1] at this
            exact this dd h''
          · have := buildShadowList_fields axL layL maxD f sh ihsh (d + 1) sa
            rw [h2] at this
            exact this dd h''
        · have := buildContentDoc_fields axL layL maxD f cd ihcd (d + 1) sb
          rw [h3] at this
          exact this dd h'
    · simp only [if_neg hlt] at hdd
      simp only [BuildResult.flatten, BuildResult.toList, flattenL_cons, flattenL_nil,
        flattenE_mk, List.append_nil] at hdd
      rcases List.mem_cons.mp hdd with h | h
      · subst h
        exact mkEEData_fieldOK bid nt nn ln attrs axL layL ref
      · simp [flattenL_nil] at h


theorem processLayoutIdx_ok (innerW innerH : Int) (bids nodeIndex : List Nat)
    (boundsArr : List (List Int)) (po : Option (List Int))
    (lookup : List (Nat × LayoutInfo)) (idx : Nat)
    (H : ∀ bid info, alGet lookup bid = some info → LayoutOK innerW innerH info) :
    ∀ bid info, alGet (processLayoutIdx innerW innerH bids nodeIndex boundsArr po lookup idx)
      bid = some info → LayoutOK innerW innerH info := by
  intro bid info h
  unfold processLayoutIdx at h
  cases hn : nodeIndex[idx]? with
  | none => rw [hn] at h; exact H bid info h
  | some nodeIdx =>
    rw [hn] at h
    dsimp only at h
    cases hb : bids[nodeIdx]? with
    | none => rw [hb] at h; exact H bid info h
    | some backendNodeId =>
      rw [hb] at h
      dsimp only at h
      by_cases hz : backendNodeId = 0
      · rw [if_pos hz] at h; exact H bid info h
      · rw [if_neg hz] at h
        cases hbd : boundsArr[idx]? with
        | none => rw [hbd] at h; exact H bid info h
        | some bounds =>
          rw [hbd] at h
          dsimp only at h
          match bounds with
          | [] => exact H bid info h
          | [x] => exact H bid info h
          | [x, y] => exact H bid info h
          | [x, y, w] => exact H bid info h
          | x :: y :: w :: hh :: rest =>
            dsimp only at h
            rcases alGet_alSet_cases _ _ _ _ _ h with hv | hold
            · subst hv
              refine ⟨rfl, ?_, rfl⟩
              dsimp only
            · exact H bid info hold


theorem foldl_processLayoutIdx_ok (innerW innerH : Int) (bids nodeIndex : List Nat)
    (boundsArr : List (List Int)) (po : Option (List Int)) (idxs : List Nat) :
    ∀ (lookup : List (Nat × LayoutInfo)),
      (∀ bid info, alGet lookup bid = some info → LayoutOK innerW innerH info) →
      ∀ bid info,
        alGet (idxs.foldl (processLayoutIdx innerW innerH bids nodeIndex boundsArr po) lookup)
          bid = some info → LayoutOK innerW innerH info := by
  induction idxs with
  | nil => intro lookup H bid info h; exact H bid info h
  | cons i is ih =>
    intro lookup H bid info h
    exact ih _ (processLayoutIdx_ok innerW innerH bids nodeIndex boundsArr po lookup i H)
      bid info h

theorem buildLayoutLookup_ok (snapshot : CDPSnapshot) (innerW innerH : Int) :
    ∀ bid info, alGet (buildLayoutLookup snapshot innerW innerH) bid = some info →
      LayoutOK innerW innerH info := by
  unfold buildLayoutLookup
  by_cases he : snapshot.documents.isEmpty
  · simp only [he, if_true]
    intro bid info h
    simp [alGet] at h
  · simp only [he, if_false]
    have main : ∀ (docs : List SnapshotDocument) (lookup : List (Nat × LayoutInfo)),
        (∀ bid info, alGet lookup bid = some info → LayoutOK innerW innerH info) →
        ∀ bid info,
          alGet (docs.foldl (fun lookup doc =>
            match doc.nodes.backendNodeId, doc.layout.nodeIndex, doc.layout.bounds with
            | some bids, some nodeIndex, some boundsArr =>
              (List.range boundsArr.length).foldl
                (processLayoutIdx innerW innerH bids nodeIndex boundsArr
                  doc.layout.paintOrders) lookup
            | _, _, _ => lookup) lookup) bid = some info →
          LayoutOK innerW innerH info := by
      intro docs
      induction docs with
      | nil => intro lookup H bid info h; exact H bid info h
      | cons doc ds ih =>
        intro lookup H bid info h
        refine ih _ ?_ bid info h
        cases hbn : doc.nodes.backendNodeId with
        | none => simpa [hbn] using H
        | some bids =>
          cases hni : doc.layout.nodeIndex with
          | none => simpa [hbn, hni] using H
          | some nodeIndex =>
            cases hbd : doc.layout.bounds with
            | none => simpa [hbn, hni, hbd] using H
            | some boundsArr =>
              simp only [hbn, hni, hbd]
              exact foldl_processLayoutIdx_ok innerW innerH bids nodeIndex boundsArr
                doc.layout.paintOrders (List.range boundsArr.length) lookup H
    intro bid info h
    exact main snapshot.documents [] (fun b i hh => by simp [alGet] at hh) bid info h

/-! ## Claims C4 and C6 -/

/-- C4: a failed per-frame accessibility query is absorbed: the combined
fetch still resolves, the failed frame contributes exactly what an empty
frame would, and in the merged output every element's accessibility facet is
the lookup over the remaining frames' data at that element's backend node id
(so `ax` is null exactly for the nodes no surviving frame describes, and
elements described by other frames keep their facet). -/
theorem C4_partial_ax_resilience (dom : CDPDOMNode) (snapshot : CDPSnapshot)
    (frameTree : CDPFrameTree) (pre post : List (String × Except String (List CDPAXNode)))
    (fid e : String) (options : MergeOptions) (vw vh : Int) (s : RegState) :
    fetchAllTrees dom snapshot frameTree (pre ++ (fid, Except.error e) :: post) =
      Except.ok { dom := dom, snapshot := snapshot,
                  axTrees := fetchAllAXTrees (pre ++ (fid, Except.ok []) :: post),
                  frameTree := frameTree } ∧
    ∀ dd ∈ (mergeToEnhancedTree
        { dom := dom, snapshot := snapshot,
          axTrees := fetchAllAXTrees (pre ++ (fid, Except.error e) :: post),
          frameTree := frameTree } options vw vh s).1.flatten,
      dd.ax = (alGet (buildAXLookup (fetchAllAXTrees (pre ++ (fid, Except.ok []) :: post)))
        dd.backendNodeId).map enhanceAXNode := by
  have hsame : fetchAllAXTrees (pre ++ (fid, Except.error e) :: post) =
      fetchAllAXTrees (pre ++ (fid, Except.ok []) :: post) := by
    unfold fetchAllAXTrees
    rw [List.foldl_append, List.foldl_append]
    rfl
  constructor
  · unfold fetchAllTrees
    rw [hsame]
  · intro dd hdd
    rw [← hsame]
    simp only [mergeToEnhancedTree] at hdd
    have h := buildEnhancedTree_fields (resolveBody dom)
      (buildAXLookup (fetchAllAXTrees (pre ++ (fid, Except.error e) :: post)))
      (buildLayoutLookup snapshot vw vh) 0 options.depth options.filter
      (if options.clearRefsFirst then clearRefs else s) dd hdd
    exact h.1

/-- C6 (amended): visibility comes from the layout record with a
visible-by-default fallback when no record exists, but the record's
visibility is exactly bounds-positivity (width and height positive) — the
captured computed styles are never consulted, so a style-hidden element with
positive bounds is classified visible — and the in-viewport flag is the
bounds/viewport intersection test. -/
theorem C6_visibility (fetchResult : TreeFetchResult) (options : MergeOptions)
    (vw vh : Int) (s : RegState) (snapshot : CDPSnapshot) :
    (∀ dd ∈ (mergeToEnhancedTree fetchResult options vw vh s).1.flatten,
      dd.visible = ((alGet (buildLayoutLookup fetchResult.snapshot vw vh)
        dd.backendNodeId).map LayoutInfo.visible).getD true ∧
      dd.inViewport = ((alGet (buildLayoutLookup fetchResult.snapshot vw vh)
        dd.backendNodeId).map LayoutInfo.inViewport).getD false) ∧
    (∀ bid info, alGet (buildLayoutLookup snapshot vw vh) bid = some info →
      LayoutOK vw vh info) := by
  constructor
  · intro dd hdd
    simp only [mergeToEnhancedTree] at hdd
    have h := buildEnhancedTree_fields (resolveBody fetchResult.dom)
      (buildAXLookup fetchResult.axTrees)
      (buildLayoutLookup fetchResult.snapshot vw vh) 0 options.depth options.filter
      (if options.clearRefsFirst then clearRefs else s) dd hdd
    exact ⟨h.2.1, h.2.2.1⟩
  · exact buildLayoutLookup_ok snapshot vw vh

/-- C6 counterexample: a body element whose snapshot layout row has positive
bounds but whose captured computed styles say `visibility: hidden` is still
classified visible by the merge — the layout lookup carries no style
information at all — refuting the claim that a style-invisible element with a
layout record is classified not visible. -/
theorem C6_counterexample :
    ((mergeToEnhancedTree
      { dom := CDPDOMNode.mk 7 1 "BODY" "body" none [] [] none,
        snapshot := { documents := [{ nodes := { backendNodeId := some [7] },
                                      layout := { nodeIndex := some [0],
                                                  bounds := some [[0, 0, 10, 10]],
                                                  styles := some [[0, 1]],
                                                  paintOrders := some [1] } }],
                      strings := ["visibility", "hidden"] },
        axTrees := [], frameTree := .mk "" [] }
      { depth := 0, filter := .all, clearRefsFirst := true } 1000 800 clearRefs).1.flatten.map
        EEData.visible) = [true] ∧
    ((buildLayoutLookup
      { documents := [{ nodes := { backendNodeId := some [7] },
                        layout := { nodeIndex := some [0],
                                    bounds := some [[0, 0, 10, 10]],
                                    styles := some [[0, 1]],
                                    paintOrders := some [1] } }],
        strings := ["visibility", "hidden"] } 1000 800).map
          (fun p => (p.1, p.2.computedStyles))) = [(7, [])] := by
  constructor
  · decide
  · decide


/-! ## Element heights and claim C5 -/

theorem eeHeight_mk (d : EEData) (ch : List EnhancedElement) :
    eeHeight (.mk d ch) = 1 + eeHeightL ch := by rw [eeHeight.eq_def]

theorem eeHeightL_nil : eeHeightL [] = 0 := by rw [eeHeightL.eq_def]

theorem eeHeightL_cons (e : EnhancedElement) (es : List EnhancedElement) :
    eeHeightL (e :: es) = max (eeHeight e) (eeHeightL es) := by rw [eeHeightL.eq_def]

theorem eeHeightL_le (l : List EnhancedElement) (k : Nat)
    (H : ∀ e ∈ l, eeHeight e ≤ k) : eeHeightL l ≤ k := by
  induction l with
  | nil => rw [eeHeightL_nil]; exact Nat.zero_le k
  | cons e es ih =>
    rw [eeHeightL_cons]
    exact max_le (H e (List.mem_cons_self e es)) (ih (fun x hx => H x (List.mem_cons_of_mem e hx)))

theorem buildChildList_height (axL : List (Nat × CDPAXNode)) (layL : List (Nat × LayoutInfo))
    (maxD : Nat) (f : FilterMode) (ns : List CDPDOMNode) (H : ∀ c ∈ ns, HeightOK c) :
    ∀ (d : Nat) (s : RegState),
      ∀ e ∈ (buildChildList ns axL layL d maxD f s).1, eeHeight e ≤ maxD + 1 - d := by
  induction ns with
  | nil =>
    intro d s e he
    rw [buildChildList_nil] at he
    simp at he
  | cons c cs ih =>
    intro d s e he
    rw [buildChildList_cons] at he
    rcases hc : buildEnhancedTree c axL layL d maxD f s with ⟨r, s1⟩
    rw [hc] at he
    dsimp only at he
    rcases hrest : buildChildList cs axL layL d maxD f s1 with ⟨rest, s2⟩
    rw [hrest] at he
    dsimp only at he
    rcases List.mem_append.mp he with h | h
    · have := H c (List.mem_cons_self c cs) axL layL d maxD f s
      rw [hc] at this
      exact this e h
    · have := ih (fun x hx => H x (List.mem_cons_of_mem c hx)) d s1
      rw [hrest] at this
      exact this e h

theorem buildShadowList_height (axL : List (Nat × CDPAXNode)) (layL : List (Nat × LayoutInfo))
    (maxD : Nat) (f : FilterMode) (roots : List CDPDOMNode)
    (H : ∀ r ∈ roots, ∀ c ∈ r.children, HeightOK c) :
    ∀ (d : Nat) (s : RegState),
      ∀ e ∈ (buildShadowList roots axL layL d maxD f s).1, eeHeight e ≤ maxD + 1 - d := by
  induction roots with
  | nil =>
    intro d s e he
    rw [buildShadowList_nil] at he
    simp at he
  | cons root rs ih =>
    intro d s e he
    cases root with
    | mk bid nt nn ln attrs ch sh cd =>
      rw [buildShadowList_cons] at he
      rcases hc : buildChildList ch axL layL d maxD f s with ⟨r1, s1⟩
      rw [hc] at he
      dsimp only at he
      rcases hrest : buildShadowList rs axL layL d maxD f s1 with ⟨rest, s2⟩
      rw [hrest] at he
      dsimp only at he
      rcases List.mem_append.mp he with h | h
      · have := buildChildList_height axL layL maxD f ch
          (fun c hc2 => H _ (List.mem_cons_self _ _) c hc2) d s
        rw [hc] at this
        exact this e h
      · have := ih (fun x hx c hc2 => H x (List.mem_cons_of_mem _ hx) c hc2) d s1
        rw [hrest] at this
        exact this e h

theorem buildContentDoc_height (axL : List (Nat × CDPAXNode)) (layL : List (Nat × LayoutInfo))
    (maxD : Nat) (f : FilterMode) (cd : Option CDPDOMNode)
    (H : ∀ c, cd = some c → HeightOK c) :
    ∀ (d : Nat) (s : RegState),
      ∀ e ∈ (buildContentDoc cd axL layL d maxD f s).1, eeHeight e ≤ maxD + 1 - d := by
  intro d s e he
  cases cd with
  | none =>
    rw [buildContentDoc_none] at he
    simp at he
  | some c =>
    rw [buildContentDoc_some] at he
    rcases hc : buildEnhancedTree c axL layL d maxD f s with ⟨r, s1⟩
    rw [hc] at he
    dsimp only at he
    have := H c rfl axL layL d maxD f s
    rw [hc] at this
    exact this e he

theorem buildEnhancedTree_height : ∀ n, HeightOK n := by
  apply CDPDOMNode.inductionOn
  intro bid nt nn ln attrs ch sh cd ihch ihsh ihcd
  intro axL layL d maxD f s e he
  rw [buildEnhancedTree_mk] at he
  by_cases hd : d > maxD
  · simp only [if_pos hd] at he
    simp [BuildResult.toList] at he
  simp only [if_neg hd] at he
  by_cases hnt : nt ≠ 1
  · simp only [if_pos hnt] at he
    simp [BuildResult.toList] at he
  simp only [if_neg hnt] at he
  by_cases hskip : SKIP_TAGS.contains (computeFacets bid nn ln attrs axL layL).tag
  · simp only [if_pos hskip] at he
    simp [BuildResult.toList] at he
  simp only [if_neg hskip] at he
  by_cases hfilter : (f == FilterMode.interactive &&
      !(computeFacets bid nn ln attrs axL layL).interactive) = true
  · simp only [hfilter, if_pos] at he
    rcases h1 : buildChildList ch axL layL d maxD f s with ⟨r1, s1⟩
    rw [h1] at he
    dsimp only at he
    rcases h2 : buildShadowList sh axL layL d maxD f s1 with ⟨r2, s2⟩
    rw [h2] at he
    dsimp only at he
    rcases h3 : buildContentDoc cd axL layL d maxD f s2 with ⟨r3, s3⟩
    rw [h3] at he
    dsimp only at he
    have hmem : e ∈ r1 ++ r2 ++ r3 := by
      simp only [spliceResult] at he
      by_cases hemp : (r1 ++ r2 ++ r3).isEmpty = true
      · rw [if_pos hemp] at he
        simp [BuildResult.toList] at he
      · rw [if_neg hemp] at he
        simpa [BuildResult.toList] using he
    rcases List.mem_append.mp hmem with h | h
    · rcases List.mem_append.mp h with h' | h'
      · have := buildChildList_height axL layL maxD f ch ihch d s
        rw [h1] at this
        exact this e h'
      · have := buildShadowList_height axL layL maxD f sh ihsh d s1
        rw [h2] at this
        exact this e h'
    · have := buildContentDoc_height axL layL maxD f cd ihcd d s2
      rw [h3] at this
      exact this e h
  · simp only [hfilter] at he
    simp only [Bool.false_eq_true, if_false] at he
    rcases hA : assignRef bid s with ⟨ref, s1⟩
    rw [hA] at he
    dsimp only at he
    by_cases hlt : d < maxD
    · simp only [if_pos hlt] at he
      rcases h1 : buildChildList ch axL layL (d + 1) maxD f s1 with ⟨r1, sa⟩
      rw [h1] at he
      dsimp only at he
      rcases h2 : buildShadowList sh axL layL (d + 1) maxD f sa with ⟨r2, sb⟩
      rw [h2] at he
      dsimp only at he
      rcases h3 : buildContentDoc cd axL layL (d + 1) maxD f sb with ⟨r3, sc⟩
      rw [h3] at he
      dsimp only at he
      simp only [BuildResult.toList, List.mem_singleton] at he
      subst he
      rw [eeHeight_mk]
      have hbound : ∀ x ∈ r1 ++ r2 ++ r3, eeHeight x ≤ maxD + 1 - (d + 1) := by
        intro x hx
        rcases List.mem_append.mp hx with h | h
        · rcases List.mem_append.mp h with h' | h'
          · have := buildChildList_height axL layL maxD f ch ihch (d + 1) s1
            rw [h1] at this
            exact this x h'
          · have := buildShadowList_height axL layL maxD f sh ihsh (d + 1) sa
            rw [h2] at this
            exact this x h'
        · have := buildContentDoc_height axL layL maxD f cd ihcd (d + 1) sb
          rw [h3] at this
          exact this x h
      have := eeHeightL_le _ _ hbound
      omega
    · simp only [if_neg hlt] at he
      simp only [BuildResult.toList, List.mem_singleton] at he
      subst he
      rw [eeHeight_mk, eeHeightL_nil]
      omega


/-- C5: with depth 0 and the all filter, the merge emits only the root
element resolved under the body wrapper, with an empty child list; and for
every depth limit N, no emitted tree has a root-to-leaf path of more than
N + 1 elements (elements beyond the limit are simply omitted). -/
theorem C5_depth_limiting (fetchResult : TreeFetchResult) (options : MergeOptions)
    (vw vh : Int) (s : RegState)
    (h1 : (resolveBody fetchResult.dom).nodeType = 1)
    (h2 : ¬ SKIP_TAGS.contains
      (tagOf (resolveBody fetchResult.dom).localName (resolveBody fetchResult.dom).nodeName))
    (hf : options.filter = FilterMode.all)
    (hd0 : options.depth = 0) :
    (∃ dd, (mergeToEnhancedTree fetchResult options vw vh s).1 = .one (.mk dd []) ∧
      dd.backendNodeId = (resolveBody fetchResult.dom).backendNodeId) ∧
    (∀ (fr2 : TreeFetchResult) (options2 : MergeOptions) (s2 : RegState),
      ∀ e ∈ (mergeToEnhancedTree fr2 options2 vw vh s2).1.toList,
        eeHeight e ≤ options2.depth + 1) := by
  constructor
  · simp only [mergeToEnhancedTree, hf, hd0]
    rcases hroot : resolveBody fetchResult.dom with ⟨bid, nt, nn, ln, attrs, ch, sh, cd⟩
    rw [hroot] at h1 h2
    simp only [CDPDOMNode.nodeType] at h1
    simp only [CDPDOMNode.localName, CDPDOMNode.nodeName] at h2
    subst h1
    rw [buildEnhancedTree_mk]
    rw [if_neg (by omega : ¬ (0 : Nat) > 0)]
    rw [if_neg (by simp : ¬ (1 : Nat) ≠ 1)]
    dsimp only
    rw [if_neg (by simpa [computeFacets] using h2)]
    rw [if_neg (by simp [show (FilterMode.all == FilterMode.interactive) = false from rfl] :
      ¬ (FilterMode.all == FilterMode.interactive &&
        !(computeFacets bid nn ln attrs (buildAXLookup fetchResult.axTrees)
          (buildLayoutLookup fetchResult.snapshot vw vh)).interactive) = true)]
    rcases hA : assignRef bid (if options.clearRefsFirst then clearRefs else s) with ⟨ref, s1⟩
    rw [if_neg (by omega : ¬ (0 : Nat) < 0)]
    exact ⟨_, rfl, by simp [mkEEData, CDPDOMNode.backendNodeId]⟩
  · intro fr2 options2 s2 e he
    simp only [mergeToEnhancedTree] at he
    have := buildEnhancedTree_height (resolveBody fr2.dom) (buildAXLookup fr2.axTrees)
      (buildLayoutLookup fr2.snapshot vw vh) 0 options2.depth options2.filter
      (if options2.clearRefsFirst then clearRefs else s2) e he
    omega

theorem C5_depth_limiting_witness :
    (∃ dd, (mergeToEnhancedTree
        { dom := CDPDOMNode.mk 1 1 "BODY" "body" none [] [] none,
          snapshot := { documents := [], strings := [] }, axTrees := [],
          frameTree := .mk "" [] }
        { depth := 0, filter := .all, clearRefsFirst := true } 0 0 clearRefs).1 =
        .one (.mk dd []) ∧
      dd.backendNodeId = (resolveBody (CDPDOMNode.mk 1 1 "BODY" "body" none [] [] none)).backendNodeId) ∧
    (∀ (fr2 : TreeFetchResult) (options2 : MergeOptions) (s2 : RegState),
      ∀ e ∈ (mergeToEnhancedTree fr2 options2 0 0 s2).1.toList,
        eeHeight e ≤ options2.depth + 1) :=
  C5_depth_limiting
    { dom := CDPDOMNode.mk 1 1 "BODY" "body" none [] [] none,
      snapshot := { documents := [], strings := [] }, axTrees := [], frameTree := .mk "" [] }
    { depth := 0, filter := .all, clearRefsFirst := true } 0 0 clearRefs
    (by decide) (by decide) rfl rfl

end Bouno

/-! ## Interactive filtering and claim C1 -/

namespace Bouno

theorem nodeHeight_mk (bid nt : Nat) (nn ln : String) (attrs : Option (List String))
    (ch sh : List CDPDOMNode) (cd : Option CDPDOMNode) :
    nodeHeight (.mk bid nt nn ln attrs ch sh cd) =
      1 + max (nodeHeightL ch) (max (nodeHeightL sh) (nodeHeightO cd)) := by
  rw [nodeHeight.eq_def]

theorem nodeHeightL_nil : nodeHeightL [] = 0 := by rw [nodeHeightL.eq_def]

theorem nodeHeightL_cons (c : CDPDOMNode) (cs : List CDPDOMNode) :
    nodeHeightL (c :: cs) = max (nodeHeight c) (nodeHeightL cs) := by rw [nodeHeightL.eq_def]

theorem nodeHeightO_none : nodeHeightO none = 0 := by rw [nodeHeightO.eq_def]

theorem nodeHeightO_some (c : CDPDOMNode) : nodeHeightO (some c) = nodeHeight c := by
  rw [nodeHeightO.eq_def]

theorem nodeHeight_pos (n : CDPDOMNode) : 1 ≤ nodeHeight n := by
  cases n with
  | mk bid nt nn ln attrs ch sh cd => rw [nodeHeight_mk]; omega

theorem nodeHeightL_le_of_mem {c : CDPDOMNode} {l : List CDPDOMNode} (h : c ∈ l) :
    nodeHeight c ≤ nodeHeightL l := by
  induction l with
  | nil => cases h
  | cons x xs ih =>
    rw [nodeHeightL_cons]
    rcases List.mem_cons.mp h with h' | h'
    · subst h'; exact le_max_left _ _
    · exact le_trans (ih h') (le_max_right _ _)

theorem nodeHeightL_eq_zero {l : List CDPDOMNode} (h : nodeHeightL l = 0) : l = [] := by
  cases l with
  | nil => rfl
  | cons x xs =>
    rw [nodeHeightL_cons] at h
    have := nodeHeight_pos x
    omega

theorem child_height_le (bid nt : Nat) (nn ln : String) (attrs : Option (List String))
    (ch sh : List CDPDOMNode) (cd : Option CDPDOMNode) :
    (∀ c ∈ ch, nodeHeight c + 1 ≤ nodeHeight (.mk bid nt nn ln attrs ch sh cd)) ∧
    (∀ r ∈ sh, ∀ c ∈ r.children, nodeHeight c + 1 ≤ nodeHeight (.mk bid nt nn ln attrs ch sh cd)) ∧
    (∀ c, cd = some c → nodeHeight c + 1 ≤ nodeHeight (.mk bid nt nn ln attrs ch sh cd)) := by
  rw [nodeHeight_mk]
  refine ⟨?_, ?_, ?_⟩
  · intro c hc
    have := nodeHeightL_le_of_mem hc
    omega
  · intro r hr c hc
    have h1 := nodeHeightL_le_of_mem hr
    have h2 : nodeHeight c + 1 ≤ nodeHeight r := by
      cases r with
      | mk bid2 nt2 nn2 ln2 attrs2 ch2 sh2 cd2 =>
        have h3 : c ∈ ch2 := hc
        have := nodeHeightL_le_of_mem h3
        rw [nodeHeight_mk]
        omega
    omega
  · intro c hc
    subst hc
    rw [nodeHeightO_some]
    omega

theorem leaf_of_height_le_one (bid nt : Nat) (nn ln : String) (attrs : Option (List String))
    (ch sh : List CDPDOMNode) (cd : Option CDPDOMNode)
    (h : nodeHeight (.mk bid nt nn ln attrs ch sh cd) ≤ 1) :
    ch = [] ∧ sh = [] ∧ cd = none := by
  rw [nodeHeight_mk] at h
  refine ⟨nodeHeightL_eq_zero (by omega), nodeHeightL_eq_zero (by omega), ?_⟩
  cases cd with
  | none => rfl
  | some c =>
    rw [nodeHeightO_some] at h
    have := nodeHeight_pos c
    omega

theorem mkEEData_backendNodeId (bid nt : Nat) (fc : NodeFacets) (ref : String) :
    (mkEEData bid nt fc ref).backendNodeId = bid := by simp [mkEEData]

theorem mkEEData_interactive (bid nt : Nat) (fc : NodeFacets) (ref : String) :
    (mkEEData bid nt fc ref).interactive = fc.interactive := by simp [mkEEData]



theorem buildChildList_filterOK (axL : List (Nat × CDPAXNode)) (layL : List (Nat × LayoutInfo))
    (maxD : Nat) (ns : List CDPDOMNode) (H : ∀ c ∈ ns, FilterOK c) :
    ∀ (dI dA : Nat) (sI sA : RegState),
      (∀ c ∈ ns, dI + nodeHeight c ≤ maxD + 1) →
      (∀ c ∈ ns, dA + nodeHeight c ≤ maxD + 1) →
      (flattenL (buildChildList ns axL layL dI maxD .interactive sI).1).map
        EEData.backendNodeId =
      ((flattenL (buildChildList ns axL layL dA maxD .all sA).1).filter
        EEData.interactive).map EEData.backendNodeId := by
  induction ns with
  | nil =>
    intro dI dA sI sA hI hA
    rw [buildChildList_nil, buildChildList_nil]
    simp [flattenL_nil]
  | cons c cs ih =>
    intro dI dA sI sA hI hA
    rw [buildChildList_cons, buildChildList_cons]
    rcases hcI : buildEnhancedTree c axL layL dI maxD .interactive sI with ⟨rI, sI1⟩
    rcases hcA : buildEnhancedTree c axL layL dA maxD .all sA with ⟨rA, sA1⟩
    dsimp only
    rcases hrI : buildChildList cs axL layL dI maxD .interactive sI1 with ⟨restI, sI2⟩
    rcases hrA : buildChildList cs axL layL dA maxD .all sA1 with ⟨restA, sA2⟩
    dsimp only
    rw [flattenL_append, flattenL_append, List.filter_append, List.map_append,
      List.map_append]
    have hhead := H c (List.mem_cons_self c cs) axL layL maxD dI dA sI sA
      (hI c (List.mem_cons_self c cs)) (hA c (List.mem_cons_self c cs))
    rw [hcI, hcA] at hhead
    have htail := ih (fun x hx => H x (List.mem_cons_of_mem c hx)) dI dA sI1 sA1
      (fun x hx => hI x (List.mem_cons_of_mem c hx))
      (fun x hx => hA x (List.mem_cons_of_mem c hx))
    rw [hrI, hrA] at htail
    dsimp only at hhead htail
    rw [flatten_toList, flatten_toList] at *
    rw [hhead, htail]

theorem buildShadowList_filterOK (axL : List (Nat × CDPAXNode)) (layL : List (Nat × LayoutInfo))
    (maxD : Nat) (roots : List CDPDOMNode) (H : ∀ r ∈ roots, ∀ c ∈ r.children, FilterOK c) :
    ∀ (dI dA : Nat) (sI sA : RegState),
      (∀ r ∈ roots, ∀ c ∈ r.children, dI + nodeHeight c ≤ maxD + 1) →
      (∀ r ∈ roots, ∀ c ∈ r.children, dA + nodeHeight c ≤ maxD + 1) →
      (flattenL (buildShadowList roots axL layL dI maxD .interactive sI).1).map
        EEData.backendNodeId =
      ((flattenL (buildShadowList roots axL layL dA maxD .all sA).1).filter
        EEData.interactive).map EEData.backendNodeId := by
  induction roots with
  | nil =>
    intro dI dA sI sA hI hA
    rw [buildShadowList_nil, buildShadowList_nil]
    simp [flattenL_nil]
  | cons root rs ih =>
    intro dI dA sI sA hI hA
    cases root with
    | mk bid nt nn ln attrs ch sh cd =>
      rw [buildShadowList_cons, buildShadowList_cons]
      rcases hcI : buildChildList ch axL layL dI maxD .interactive sI with ⟨rI, sI1⟩
      rcases hcA : buildChildList ch axL layL dA maxD .all sA with ⟨rA, sA1⟩
      dsimp only
      rcases hrI : buildShadowList rs axL layL dI maxD .interactive sI1 with ⟨restI, sI2⟩
      rcases hrA : buildShadowList rs axL layL dA maxD .all sA1 with ⟨restA, sA2⟩
      dsimp only
      rw [flattenL_append, flattenL_append, List.filter_append, List.map_append,
        List.map_append]
      have hhead := buildChildList_filterOK axL layL maxD ch
        (fun c hc => H _ (List.mem_cons_self _ _) c hc) dI dA sI sA
        (fun c hc => hI _ (List.mem_cons_self _ _) c hc)
        (fun c hc => hA _ (List.mem_cons_self _ _) c hc)
      rw [hcI, hcA] at hhead
      have htail := ih (fun x hx c hc => H x (List.mem_cons_of_mem _ hx) c hc) dI dA sI1 sA1
        (fun x hx c hc => hI x (List.mem_cons_of_mem _ hx) c hc)
        (fun x hx c hc => hA x (List.mem_cons_of_mem _ hx) c hc)
      rw [hrI, hrA] at htail
      dsimp only at hhead htail
      rw [hhead, htail]

theorem buildContentDoc_filterOK (axL : List (Nat × CDPAXNode)) (layL : List (Nat × LayoutInfo))
    (maxD : Nat) (cd : Option CDPDOMNode) (H : ∀ c, cd = some c → FilterOK c) :
    ∀ (dI dA : Nat) (sI sA : RegState),
      (∀ c, cd = some c → dI + nodeHeight c ≤ maxD + 1) →
      (∀ c, cd = some c → dA + nodeHeight c ≤ maxD + 1) →
      (flattenL (buildContentDoc cd axL layL dI maxD .interactive sI).1).map
        EEData.backendNodeId =
      ((flattenL (buildContentDoc cd axL layL dA maxD .all sA).1).filter
        EEData.interactive).map EEData.backendNodeId := by
  intro dI dA sI sA hI hA
  cases cd with
  | none =>
    rw [buildContentDoc_none, buildContentDoc_none]
    simp [flattenL_nil]
  | some c =>
    rw [buildContentDoc_some, buildContentDoc_some]
    rcases hcI : buildEnhancedTree c axL layL dI maxD .interactive sI with ⟨rI, sI1⟩
    rcases hcA : buildEnhancedTree c axL layL dA maxD .all sA with ⟨rA, sA1⟩
    dsimp only
    have h := H c rfl axL layL maxD dI dA sI sA (hI c rfl) (hA c rfl)
    rw [hcI, hcA] at h
    dsimp only at h
    rw [flatten_toList, flatten_toList] at *
    exact h



theorem buildEnhancedTree_filterOK : ∀ n, FilterOK n := by
  apply CDPDOMNode.inductionOn
  intro bid nt nn ln attrs ch sh cd ihch ihsh ihcd
  intro axL layL maxD dI dA sI sA hI hA
  have hpos := nodeHeight_pos (CDPDOMNode.mk bid nt nn ln attrs ch sh cd)
  have hdI : ¬ dI > maxD := by omega
  have hdA : ¬ dA > maxD := by omega
  obtain ⟨hchld, hshld, hcdld⟩ := child_height_le bid nt nn ln attrs ch sh cd
  rw [buildEnhancedTree_mk, buildEnhancedTree_mk]
  rw [if_neg hdI, if_neg hdA]
  by_cases hnt : nt ≠ 1
  · rw [if_pos hnt, if_pos hnt]
    simp [BuildResult.flatten, BuildResult.toList, flattenL_nil]
  rw [if_neg hnt, if_neg hnt]
  dsimp only
  by_cases hskip : SKIP_TAGS.contains (computeFacets bid nn ln attrs axL layL).tag = true
  · rw [if_pos hskip, if_pos hskip]
    simp [BuildResult.flatten, BuildResult.toList, flattenL_nil]
  rw [if_neg hskip, if_neg hskip]
  by_cases hint : (computeFacets bid nn ln attrs axL layL).interactive = true
  · -- interactive node: both runs emit it
    have hcondI : ¬ ((FilterMode.interactive == FilterMode.interactive &&
        !(computeFacets bid nn ln attrs axL layL).interactive) = true) := by
      rw [hint]; decide
    have hcondA : ¬ ((FilterMode.all == FilterMode.interactive &&
        !(computeFacets bid nn ln attrs axL layL).interactive) = true) := by
      intro hc
      rw [Bool.and_eq_true] at hc
      exact absurd hc.1 (by decide)
    rw [if_neg hcondI, if_neg hcondA]
    rcases hAI : assignRef bid sI with ⟨refI, sI1⟩
    rcases hAA : assignRef bid sA with ⟨refA, sA1⟩
    dsimp only
    by_cases hltI : dI < maxD <;> by_cases hltA : dA < maxD
    · rw [if_pos hltI, if_pos hltA]
      rcases h1I : buildChildList ch axL layL (dI + 1) maxD .interactive sI1 with ⟨rI1, sIa⟩
      rcases h1A : buildChildList ch axL layL (dA + 1) maxD .all sA1 with ⟨rA1, sAa⟩
      dsimp only
      rcases h2I : buildShadowList sh axL layL (dI + 1) maxD .interactive sIa with ⟨rI2, sIb⟩
      rcases h2A : buildShadowList sh axL layL (dA + 1) maxD .all sAa with ⟨rA2, sAb⟩
      dsimp only
      rcases h3I : buildContentDoc cd axL layL (dI + 1) maxD .interactive sIb with ⟨rI3, sIc⟩
      rcases h3A : buildContentDoc cd axL layL (dA + 1) maxD .all sAb with ⟨rA3, sAc⟩
      dsimp only
      simp only [BuildResult.flatten, BuildResult.toList, flattenL_cons, flattenL_nil,
        flattenE_mk, List.append_nil, List.filter_cons, mkEEData_interactive, hint,
        if_true, List.map_cons, mkEEData_backendNodeId]
      congr 1
      rw [flattenL_append, flattenL_append, flattenL_append, flattenL_append,
        List.filter_append, List.filter_append, List.map_append, List.map_append,
        List.map_append, List.map_append]
      have e1 := buildChildList_filterOK axL layL maxD ch ihch (dI + 1) (dA + 1) sI1 sA1
        (fun c hc => by have := hchld c hc; omega)
        (fun c hc => by have := hchld c hc; omega)
      rw [h1I, h1A] at e1
      dsimp only at e1
      have e2 := buildShadowList_filterOK axL layL maxD sh ihsh (dI + 1) (dA + 1) sIa sAa
        (fun r hr c hc => by have := hshld r hr c hc; omega)
        (fun r hr c hc => by have := hshld r hr c hc; omega)
      rw [h2I, h2A] at e2
      dsimp only at e2
      have e3 := buildContentDoc_filterOK axL layL maxD cd ihcd (dI + 1) (dA + 1) sIb sAb
        (fun c hc => by have := hcdld c hc; omega)
        (fun c hc => by have := hcdld c hc; omega)
      rw [h3I, h3A] at e3
      dsimp only at e3
      rw [e1, e2, e3]
    · -- dA at the limit: the subtree is a single leaf
      have hleaf : nodeHeight (CDPDOMNode.mk bid nt nn ln attrs ch sh cd) ≤ 1 := by omega
      obtain ⟨hch0, hsh0, hcd0⟩ := leaf_of_height_le_one bid nt nn ln attrs ch sh cd hleaf
      subst hch0; subst hsh0; subst hcd0
      rw [if_pos hltI, if_neg hltA]
      rw [buildChildList_nil]
      dsimp only
      rw [buildShadowList_nil]
      dsimp only
      rw [buildContentDoc_none]
      dsimp only
      simp [BuildResult.flatten, BuildResult.toList, flattenL_cons, flattenL_nil,
        flattenE_mk, List.filter_cons, mkEEData_interactive, hint, mkEEData_backendNodeId]
    · have hleaf : nodeHeight (CDPDOMNode.mk bid nt nn ln attrs ch sh cd) ≤ 1 := by omega
      obtain ⟨hch0, hsh0, hcd0⟩ := leaf_of_height_le_one bid nt nn ln attrs ch sh cd hleaf
      subst hch0; subst hsh0; subst hcd0
      rw [if_neg hltI, if_pos hltA]
      rw [buildChildList_nil]
      dsimp only
      rw [buildShadowList_nil]
      dsimp only
      rw [buildContentDoc_none]
      dsimp only
      simp [BuildResult.flatten, BuildResult.toList, flattenL_cons, flattenL_nil,
        flattenE_mk, List.filter_cons, mkEEData_interactive, hint, mkEEData_backendNodeId]
    · rw [if_neg hltI, if_neg hltA]
      simp [BuildResult.flatten, BuildResult.toList, flattenL_cons, flattenL_nil,
        flattenE_mk, List.filter_cons, mkEEData_interactive, hint, mkEEData_backendNodeId]
  · -- non-interactive node: the interactive run splices, the all run emits
    have hintf : (computeFacets bid nn ln attrs axL layL).interactive = false := by
      simpa using hint
    have hcondI : ((FilterMode.interactive == FilterMode.interactive &&
        !(computeFacets bid nn ln attrs axL layL).interactive) = true) := by
      rw [hintf]; decide
    have hcondA : ¬ ((FilterMode.all == FilterMode.interactive &&
        !(computeFacets bid nn ln attrs axL layL).interactive) = true) := by
      intro hc
      rw [Bool.and_eq_true] at hc
      exact absurd hc.1 (by decide)
    rw [if_pos hcondI, if_neg hcondA]
    rcases h1I : buildChildList ch axL layL dI maxD .interactive sI with ⟨rI1, sIa⟩
    dsimp only
    rcases h2I : buildShadowList sh axL layL dI maxD .interactive sIa with ⟨rI2, sIb⟩
    dsimp only
    rcases h3I : buildContentDoc cd axL layL dI maxD .interactive sIb with ⟨rI3, sIc⟩
    dsimp only
    rcases hAA : assignRef bid sA with ⟨refA, sA1⟩
    dsimp only
    rw [flatten_spliceResult]
    by_cases hltA : dA < maxD
    · rw [if_pos hltA]
      rcases h1A : buildChildList ch axL layL (dA + 1) maxD .all sA1 with ⟨rA1, sAa⟩
      dsimp only
      rcases h2A : buildShadowList sh axL layL (dA + 1) maxD .all sAa with ⟨rA2, sAb⟩
      dsimp only
      rcases h3A : buildContentDoc cd axL layL (dA + 1) maxD .all sAb with ⟨rA3, sAc⟩
      dsimp only
      simp only [BuildResult.flatten, BuildResult.toList, flattenL_cons, flattenL_nil,
        flattenE_mk, List.append_nil, List.filter_cons, mkEEData_interactive, hintf,
        Bool.false_eq_true, if_false]
      rw [flattenL_append, flattenL_append, flattenL_append, flattenL_append,
        List.filter_append, List.filter_append, List.map_append, List.map_append,
        List.map_append, List.map_append]
      have e1 := buildChildList_filterOK axL layL maxD ch ihch dI (dA + 1) sI sA1
        (fun c hc => by have := hchld c hc; omega)
        (fun c hc => by have := hchld c hc; omega)
      rw [h1I, h1A] at e1
      dsimp only at e1
      have e2 := buildShadowList_filterOK axL layL maxD sh ihsh dI (dA + 1) sIa sAa
        (fun r hr c hc => by have := hshld r hr c hc; omega)
        (fun r hr c hc => by have := hshld r hr c hc; omega)
      rw [h2I, h2A] at e2
      dsimp only at e2
      have e3 := buildContentDoc_filterOK axL layL maxD cd ihcd dI (dA + 1) sIb sAb
        (fun c hc => by have := hcdld c hc; omega)
        (fun c hc => by have := hcdld c hc; omega)
      rw [h3I, h3A] at e3
      dsimp only at e3
      rw [e1, e2, e3]
    · have hleaf : nodeHeight (CDPDOMNode.mk bid nt nn ln attrs ch sh cd) ≤ 1 := by omega
      obtain ⟨hch0, hsh0, hcd0⟩ := leaf_of_height_le_one bid nt nn ln attrs ch sh cd hleaf
      subst hch0; subst hsh0; subst hcd0
      rw [buildChildList_nil] at h1I
      rw [if_neg hltA]
      cases h1I
      rw [buildShadowList_nil] at h2I
      cases h2I
      rw [buildContentDoc_none] at h3I
      cases h3I
      simp [BuildResult.flatten, BuildResult.toList, flattenL_cons, flattenL_nil,
        flattenE_mk, List.filter_cons, mkEEData_interactive, hintf]



/-- C1 (amended): whenever the configured depth limit does not cut the tree
(root height at most depth+1), the pre-order list of structural ids surfaced by
the merge with filter=interactive equals the interactive-filtered pre-order
list of the merge with filter=all at the same depth; the original unconditional
claim fails for smaller limits because the splice recursion does not increment
the depth counter. -/
theorem C1_interactive_filter (fetchResult : TreeFetchResult)
    (optionsI optionsA : MergeOptions) (vw vh : Int) (sI sA : RegState)
    (hfI : optionsI.filter = FilterMode.interactive)
    (hfA : optionsA.filter = FilterMode.all)
    (hdep : optionsI.depth = optionsA.depth)
    (hh : nodeHeight (resolveBody fetchResult.dom) ≤ optionsA.depth + 1) :
    ((mergeToEnhancedTree fetchResult optionsI vw vh sI).1.flatten.map
      EEData.backendNodeId) =
    (((mergeToEnhancedTree fetchResult optionsA vw vh sA).1.flatten.filter
      EEData.interactive).map EEData.backendNodeId) := by
  simp only [mergeToEnhancedTree, hfI, hfA, hdep]
  exact buildEnhancedTree_filterOK (resolveBody fetchResult.dom)
    (buildAXLookup fetchResult.axTrees) (buildLayoutLookup fetchResult.snapshot vw vh)
    optionsA.depth 0 0
    (if optionsI.clearRefsFirst then clearRefs else sI)
    (if optionsA.clearRefsFirst then clearRefs else sA)
    (by omega) (by omega)

/-- C1 counterexample: a body with one button child, merged at depth 0 — the
interactive run splices through the non-interactive body without spending
depth and surfaces the button (ids [2]), while the all run emits only the body
and its interactive-filtered id list is empty, refuting the claimed
unconditional set equality. -/
theorem C1_counterexample :
    ((mergeToEnhancedTree
      { dom := CDPDOMNode.mk 1 1 "BODY" "body" none
          [CDPDOMNode.mk 2 1 "BUTTON" "button" none [] [] none] [] none,
        snapshot := { documents := [], strings := [] }, axTrees := [],
        frameTree := .mk "" [] }
      { depth := 0, filter := .interactive, clearRefsFirst := true }
      0 0 clearRefs).1.flatten.map EEData.backendNodeId) = [2] ∧
    (((mergeToEnhancedTree
      { dom := CDPDOMNode.mk 1 1 "BODY" "body" none
          [CDPDOMNode.mk 2 1 "BUTTON" "button" none [] [] none] [] none,
        snapshot := { documents := [], strings := [] }, axTrees := [],
        frameTree := .mk "" [] }
      { depth := 0, filter := .all, clearRefsFirst := true }
      0 0 clearRefs).1.flatten.filter EEData.interactive).map EEData.backendNodeId) = [] :=
  ⟨by decide, by decide⟩

theorem C1_interactive_filter_witness :
    ((mergeToEnhancedTree
      { dom := CDPDOMNode.mk 1 1 "BODY" "body" none
          [CDPDOMNode.mk 2 1 "BUTTON" "button" none [] [] none] [] none,
        snapshot := { documents := [], strings := [] }, axTrees := [],
        frameTree := .mk "" [] }
      { depth := 1, filter := FilterMode.interactive, clearRefsFirst := true }
      0 0 clearRefs).1.flatten.map EEData.backendNodeId) =
    (((mergeToEnhancedTree
      { dom := CDPDOMNode.mk 1 1 "BODY" "body" none
          [CDPDOMNode.mk 2 1 "BUTTON" "button" none [] [] none] [] none,
        snapshot := { documents := [], strings := [] }, axTrees := [],
        frameTree := .mk "" [] }
      { depth := 1, filter := FilterMode.all, clearRefsFirst := true }
      0 0 clearRefs).1.flatten.filter EEData.interactive).map EEData.backendNodeId) :=
  C1_interactive_filter
    { dom := CDPDOMNode.mk 1 1 "BODY" "body" none
        [CDPDOMNode.mk 2 1 "BUTTON" "button" none [] [] none] [] none,
      snapshot := { documents := [], strings := [] }, axTrees := [],
      frameTree := .mk "" [] }
    { depth := 1, filter := FilterMode.interactive, clearRefsFirst := true }
    { depth := 1, filter := FilterMode.all, clearRefsFirst := true }
    0 0 clearRefs clearRefs rfl rfl rfl (by decide)

end Bouno

/-! ## Password-value noninterference and claim C10 -/

namespace Bouno

theorem toElementRef_mk (d : EEData) (ch : List EnhancedElement) :
    toElementRef (.mk d ch) = .mk (toERData d) (toElementRefList ch) := by
  rw [toElementRef.eq_def]

theorem toElementRefList_nil : toElementRefList [] = [] := by
  rw [toElementRefList.eq_def]

theorem toElementRefList_cons (e : EnhancedElement) (es : List EnhancedElement) :
    toElementRefList (e :: es) = toElementRef e :: toElementRefList es := by
  rw [toElementRefList.eq_def]

theorem toElementRefList_append (as bs : List EnhancedElement) :
    toElementRefList (as ++ bs) = toElementRefList as ++ toElementRefList bs := by
  induction as with
  | nil => rw [toElementRefList_nil]; simp
  | cons a as ih =>
    rw [List.cons_append, toElementRefList_cons, toElementRefList_cons, ih, List.cons_append]

theorem alGet_alErase_ne {κ α : Type} [DecidableEq κ] (m : List (κ × α)) (k k' : κ)
    (h : k' ≠ k) : alGet (alErase m k) k' = alGet m k' := by
  induction m with
  | nil => simp [alErase]
  | cons p ps ih =>
    by_cases hp : p.1 = k
    · have hp' : ¬ p.1 = k' := fun hh => h (hh.symm.trans hp)
      have hkk : ¬ k = k' := fun hh => h hh.symm
      simp [alErase, alGet, hp, hp', hkk]
    · by_cases hp' : p.1 = k'
      · simp [alErase, alGet, hp, hp', h]
      · simp [alErase, alGet, hp, hp', ih]

theorem pwAttrs_get {nn ln : String} {a b : Option (List String)}
    (h : pwAttrsOK nn ln a b = true) :
    ∀ k, k ≠ "value" → alGet (parseAttributes a) k = alGet (parseAttributes b) k := by
  intro k hk
  rw [pwAttrsOK, Bool.or_eq_true] at h
  rcases h with h | h
  · rw [beq_iff_eq] at h
    rw [h]
  · rw [Bool.and_eq_true, Bool.and_eq_true, Bool.and_eq_true] at h
    have he : alErase (parseAttributes a) "value" = alErase (parseAttributes b) "value" :=
      beq_iff_eq.mp h.2
    calc alGet (parseAttributes a) k
        = alGet (alErase (parseAttributes a) "value") k := (alGet_alErase_ne _ _ _ hk).symm
      _ = alGet (alErase (parseAttributes b) "value") k := by rw [he]
      _ = alGet (parseAttributes b) k := alGet_alErase_ne _ _ _ hk

theorem isInteractive_congr (tag : String) (aA aB : AttrRec) (ax : Option EnhancedAXNode)
    (vis : Bool) (h : ∀ k, k ≠ "value" → alGet aA k = alGet aB k) :
    isInteractive tag aA ax vis = isInteractive tag aB ax vis := by
  simp only [isInteractive]
  rw [h "href" (by decide), h "onclick" (by decide), h "onmousedown" (by decide),
    h "tabindex" (by decide), h "contenteditable" (by decide)]

theorem computeFacets_tag (bid : Nat) (nn ln : String) (a : Option (List String))
    (axL : List (Nat × CDPAXNode)) (layL : List (Nat × LayoutInfo)) :
    (computeFacets bid nn ln a axL layL).tag = tagOf ln nn := rfl

theorem computeFacets_attributes (bid : Nat) (nn ln : String) (a : Option (List String))
    (axL : List (Nat × CDPAXNode)) (layL : List (Nat × LayoutInfo)) :
    (computeFacets bid nn ln a axL layL).attributes = parseAttributes a := rfl

theorem computeFacets_interactive (bid : Nat) (nn ln : String) (a : Option (List String))
    (axL : List (Nat × CDPAXNode)) (layL : List (Nat × LayoutInfo)) :
    (computeFacets bid nn ln a axL layL).interactive =
      isInteractive (tagOf ln nn) (parseAttributes a)
        ((alGet axL bid).map enhanceAXNode)
        (((alGet layL bid).map LayoutInfo.visible).getD true) := rfl

theorem computeFacets_interactive_congr (bid : Nat) (nn ln : String)
    (aA aB : Option (List String)) (axL : List (Nat × CDPAXNode))
    (layL : List (Nat × LayoutInfo)) (h : pwAttrsOK nn ln aA aB = true) :
    (computeFacets bid nn ln aA axL layL).interactive =
    (computeFacets bid nn ln aB axL layL).interactive := by
  rw [computeFacets_interactive, computeFacets_interactive]
  exact isInteractive_congr _ _ _ _ _ (pwAttrs_get h)

theorem getCompoundChildren_password (v : Option String) :
    getCompoundChildren "input" (some "password") v = [] := rfl



theorem toERData_mkEEData_congr (bid nt : Nat) (nn ln : String)
    (aA aB : Option (List String)) (axL : List (Nat × CDPAXNode))
    (layL : List (Nat × LayoutInfo)) (ref : String)
    (hpw : pwAttrsOK nn ln aA aB = true) :
    toERData (mkEEData bid nt (computeFacets bid nn ln aA axL layL) ref) =
    toERData (mkEEData bid nt (computeFacets bid nn ln aB axL layL) ref) := by
  have hget := pwAttrs_get hpw
  rw [pwAttrsOK, Bool.or_eq_true] at hpw
  rcases hpw with he | hpw
  · rw [beq_iff_eq] at he; rw [he]
  · rw [Bool.and_eq_true, Bool.and_eq_true, Bool.and_eq_true] at hpw
    obtain ⟨⟨⟨htag, htyA⟩, htyB⟩, _⟩ := hpw
    rw [beq_iff_eq] at htag htyA htyB
    have hint := isInteractive_congr "input" (parseAttributes aA) (parseAttributes aB)
      ((alGet axL bid).map enhanceAXNode)
      (((alGet layL bid).map LayoutInfo.visible).getD true) hget
    have hpw1 : ((some "password" : Option String) != some "password") = false := rfl
    have hpw2 : strTruthy (some "password") = true := rfl
    have hia : (("input" : String) == "a") = false := rfl
    simp only [toERData, mkEEData, computeFacets, htag, htyA, htyB, reduceIte, hpw1,
      hpw2, hia, Bool.and_false, Bool.false_and, Bool.false_eq_true, if_false,
      getCompoundChildren_password]
    rw [hget "placeholder" (by decide), hget "id" (by decide), hget "class" (by decide), hint]



theorem pwEquivN_mk (bidA ntA : Nat) (nnA lnA : String) (aA : Option (List String))
    (chA shA : List CDPDOMNode) (cdA : Option CDPDOMNode)
    (bidB ntB : Nat) (nnB lnB : String) (aB : Option (List String))
    (chB shB : List CDPDOMNode) (cdB : Option CDPDOMNode) :
    pwEquivN (.mk bidA ntA nnA lnA aA chA shA cdA) (.mk bidB ntB nnB lnB aB chB shB cdB) =
      (bidA == bidB && ntA == ntB && nnA == nnB && lnA == lnB &&
       pwAttrsOK nnA lnA aA aB &&
       pwEquivL chA chB && pwEquivL shA shB && pwEquivO cdA cdB) := by
  rw [pwEquivN.eq_def]

theorem pwEquivL_nil : pwEquivL [] [] = true := by rw [pwEquivL.eq_def]

theorem pwEquivL_cons (a b : CDPDOMNode) (as bs : List CDPDOMNode) :
    pwEquivL (a :: as) (b :: bs) = (pwEquivN a b && pwEquivL as bs) := by
  rw [pwEquivL.eq_def]

theorem pwEquivL_nil_cons (b : CDPDOMNode) (bs : List CDPDOMNode) :
    pwEquivL [] (b :: bs) = false := by rw [pwEquivL.eq_def]

theorem pwEquivL_cons_nil (a : CDPDOMNode) (as : List CDPDOMNode) :
    pwEquivL (a :: as) [] = false := by rw [pwEquivL.eq_def]

theorem pwEquivO_none : pwEquivO none none = true := by rw [pwEquivO.eq_def]

theorem pwEquivO_some (a b : CDPDOMNode) : pwEquivO (some a) (some b) = pwEquivN a b := by
  rw [pwEquivO.eq_def]

theorem pwEquivO_none_some (b : CDPDOMNode) : pwEquivO none (some b) = false := by
  rw [pwEquivO.eq_def]

theorem pwEquivO_some_none (a : CDPDOMNode) : pwEquivO (some a) none = false := by
  rw [pwEquivO.eq_def]

/-- Unpacked form of node equivalence. -/
theorem pwEquivN_parts {bidA ntA nnA lnA aA chA shA cdA bidB ntB nnB lnB aB chB shB cdB}
    (h : pwEquivN (.mk bidA ntA nnA lnA aA chA shA cdA)
      (.mk bidB ntB nnB lnB aB chB shB cdB) = true) :
    bidA = bidB ∧ ntA = ntB ∧ nnA = nnB ∧ lnA = lnB ∧ pwAttrsOK nnA lnA aA aB = true ∧
    pwEquivL chA chB = true ∧ pwEquivL shA shB = true ∧ pwEquivO cdA cdB = true := by
  rw [pwEquivN_mk] at h
  simp only [Bool.and_eq_true, beq_iff_eq] at h
  exact ⟨h.1.1.1.1.1.1.1, h.1.1.1.1.1.1.2, h.1.1.1.1.1.2, h.1.1.1.1.2, h.1.1.1.2,
    h.1.1.2, h.1.2, h.2⟩

theorem pwEquivL_find (str : String) : ∀ {as bs : List CDPDOMNode},
    pwEquivL as bs = true →
    (match as.find? (fun c => c.localName == str), bs.find? (fun c => c.localName == str) with
     | none, none => True
     | some a, some b => pwEquivN a b = true
     | _, _ => False) := by
  intro as
  induction as with
  | nil =>
    intro bs h
    cases bs with
    | nil => simp
    | cons b bs => rw [pwEquivL_nil_cons] at h; cases h
  | cons a as ih =>
    intro bs h
    cases bs with
    | nil => rw [pwEquivL_cons_nil] at h; cases h
    | cons b bs =>
      rw [pwEquivL_cons, Bool.and_eq_true] at h
      have hln : a.localName = b.localName := by
        rcases a with ⟨bidA, ntA, nnA, lnA, aA, chA, shA, cdA⟩
        rcases b with ⟨bidB, ntB, nnB, lnB, aB, chB, shB, cdB⟩
        exact (pwEquivN_parts h.1).2.2.2.1
      by_cases hp : (a.localName == str) = true
      · rw [List.find?_cons_of_pos (p := fun c => c.localName == str) as hp,
          List.find?_cons_of_pos (p := fun c => c.localName == str) bs
            (by simpa [← hln] using hp)]
        exact h.1
      · rw [List.find?_cons_of_neg (p := fun c => c.localName == str) as hp,
          List.find?_cons_of_neg (p := fun c => c.localName == str) bs
            (by simpa [← hln] using hp)]
        exact ih h.2

theorem pwEquiv_resolveBody {a b : CDPDOMNode} (h : pwEquivN a b = true) :
    pwEquivN (resolveBody a) (resolveBody b) = true := by
  rcases a with ⟨bidA, ntA, nnA, lnA, aA, chA, shA, cdA⟩
  rcases b with ⟨bidB, ntB, nnB, lnB, aB, chB, shB, cdB⟩
  obtain ⟨hbid, hnt, hnn, hln, hattrs, hch, hsh, hcd⟩ := pwEquivN_parts h
  simp only [resolveBody, CDPDOMNode.nodeName, CDPDOMNode.children]
  by_cases hdoc : nnA = "#document"
  · rw [if_pos hdoc, if_pos (by rw [← hnn]; exact hdoc)]
    have hfind := pwEquivL_find "html" hch
    rcases hA : chA.find? (fun c => c.localName == "html") with _ | htmlA <;>
      rcases hB : chB.find? (fun c => c.localName == "html") with _ | htmlB <;>
      rw [hA, hB] at hfind <;> simp only [hA, hB]
    · exact h
    · cases hfind
    · cases hfind
    · rcases htmlA with ⟨b1, n1, nn1, ln1, a1, c1, s1, d1⟩
      rcases htmlB with ⟨b2, n2, nn2, ln2, a2, c2, s2, d2⟩
      have hch2 : pwEquivL c1 c2 = true := (pwEquivN_parts hfind).2.2.2.2.2.1
      have hfind2 := pwEquivL_find "body" hch2
      simp only [CDPDOMNode.children]
      rcases hA2 : c1.find? (fun c => c.localName == "body") with _ | bodyA <;>
        rcases hB2 : c2.find? (fun c => c.localName == "body") with _ | bodyB <;>
        rw [hA2, hB2] at hfind2 <;> simp only [hA2, hB2]
      · exact h
      · cases hfind2
      · cases hfind2
      · exact hfind2
  · rw [if_neg hdoc, if_neg (by rw [← hnn]; exact hdoc)]
    exact h



theorem spliceResult_toList (l : List EnhancedElement) (s : RegState) :
    (spliceResult l s).1.toList = l := by
  simp only [spliceResult]
  by_cases h : l.isEmpty = true
  · rw [if_pos h]
    simp [BuildResult.toList, List.isEmpty_iff.mp h]
  · rw [if_neg h]
    rfl

theorem spliceResult_snd (l : List EnhancedElement) (s : RegState) :
    (spliceResult l s).2 = s := rfl

theorem buildChildList_pwOK (axL : List (Nat × CDPAXNode)) (layL : List (Nat × LayoutInfo))
    (d maxD : Nat) (f : FilterMode) :
    ∀ (as bs : List CDPDOMNode), pwEquivL as bs = true → (∀ c ∈ as, PwOK c) →
    ∀ s, toElementRefList (buildChildList as axL layL d maxD f s).1 =
      toElementRefList (buildChildList bs axL layL d maxD f s).1 ∧
      (buildChildList as axL layL d maxD f s).2 =
        (buildChildList bs axL layL d maxD f s).2 := by
  intro as
  induction as with
  | nil =>
    intro bs h H s
    cases bs with
    | nil => exact ⟨rfl, rfl⟩
    | cons b bs => rw [pwEquivL_nil_cons] at h; cases h
  | cons a as ih =>
    intro bs h H s
    cases bs with
    | nil => rw [pwEquivL_cons_nil] at h; cases h
    | cons b bs =>
      rw [pwEquivL_cons, Bool.and_eq_true] at h
      rw [buildChildList_cons, buildChildList_cons]
      rcases hA1 : buildEnhancedTree a axL layL d maxD f s with ⟨rA, sA1⟩
      rcases hB1 : buildEnhancedTree b axL layL d maxD f s with ⟨rB, sB1⟩
      dsimp only
      have hhead := H a (List.mem_cons_self a as) b h.1 axL layL d maxD f s
      rw [hA1, hB1] at hhead
      dsimp only at hhead
      rcases hA2 : buildChildList as axL layL d maxD f sA1 with ⟨restA, sA2⟩
      rcases hB2 : buildChildList bs axL layL d maxD f sB1 with ⟨restB, sB2⟩
      dsimp only
      rw [← hhead.2] at hB2
      have htail := ih bs h.2 (fun c hc => H c (List.mem_cons_of_mem a hc)) sA1
      rw [hA2, hB2] at htail
      dsimp only at htail
      rw [toElementRefList_append, toElementRefList_append, hhead.1, htail.1]
      exact ⟨rfl, htail.2⟩

theorem buildShadowList_pwOK (axL : List (Nat × CDPAXNode)) (layL : List (Nat × LayoutInfo))
    (d maxD : Nat) (f : FilterMode) :
    ∀ (as bs : List CDPDOMNode), pwEquivL as bs = true →
      (∀ r ∈ as, ∀ c ∈ r.children, PwOK c) →
    ∀ s, toElementRefList (buildShadowList as axL layL d maxD f s).1 =
      toElementRefList (buildShadowList bs axL layL d maxD f s).1 ∧
      (buildShadowList as axL layL d maxD f s).2 =
        (buildShadowList bs axL layL d maxD f s).2 := by
  intro as
  induction as with
  | nil =>
    intro bs h H s
    cases bs with
    | nil => exact ⟨rfl, rfl⟩
    | cons b bs => rw [pwEquivL_nil_cons] at h; cases h
  | cons a as ih =>
    intro bs h H s
    cases bs with
    | nil => rw [pwEquivL_cons_nil] at h; cases h
    | cons b bs =>
      rw [pwEquivL_cons, Bool.and_eq_true] at h
      rcases a with ⟨b1, n1, nn1, ln1, a1, c1, s1, d1⟩
      rcases b with ⟨b2, n2, nn2, ln2, a2, c2, s2, d2⟩
      have hparts := pwEquivN_parts h.1
      rw [buildShadowList_cons, buildShadowList_cons]
      rcases hA1 : buildChildList c1 axL layL d maxD f s with ⟨rA, sA1⟩
      rcases hB1 : buildChildList c2 axL layL d maxD f s with ⟨rB, sB1⟩
      dsimp only
      have hhead := buildChildList_pwOK axL layL d maxD f c1 c2 hparts.2.2.2.2.2.1
        (fun c hc => H _ (List.mem_cons_self _ as) c hc) s
      rw [hA1, hB1] at hhead
      dsimp only at hhead
      rcases hA2 : buildShadowList as axL layL d maxD f sA1 with ⟨restA, sA2⟩
      rcases hB2 : buildShadowList bs axL layL d maxD f sB1 with ⟨restB, sB2⟩
      dsimp only
      rw [← hhead.2] at hB2
      have htail := ih bs h.2 (fun r hr => H r (List.mem_cons_of_mem _ hr)) sA1
      rw [hA2, hB2] at htail
      dsimp only at htail
      rw [toElementRefList_append, toElementRefList_append, hhead.1, htail.1]
      exact ⟨rfl, htail.2⟩

theorem buildContentDoc_pwOK (axL : List (Nat × CDPAXNode)) (layL : List (Nat × LayoutInfo))
    (d maxD : Nat) (f : FilterMode) (ca cb : Option CDPDOMNode)
    (h : pwEquivO ca cb = true) (H : ∀ c, ca = some c → PwOK c) (s : RegState) :
    toElementRefList (buildContentDoc ca axL layL d maxD f s).1 =
      toElementRefList (buildContentDoc cb axL layL d maxD f s).1 ∧
    (buildContentDoc ca axL layL d maxD f s).2 =
      (buildContentDoc cb axL layL d maxD f s).2 := by
  cases ca with
  | none =>
    cases cb with
    | none => exact ⟨rfl, rfl⟩
    | some b => rw [pwEquivO_none_some] at h; cases h
  | some a =>
    cases cb with
    | none => rw [pwEquivO_some_none] at h; cases h
    | some b =>
      rw [pwEquivO_some] at h
      rw [buildContentDoc_some, buildContentDoc_some]
      rcases hA1 : buildEnhancedTree a axL layL d maxD f s with ⟨rA, sA1⟩
      rcases hB1 : buildEnhancedTree b axL layL d maxD f s with ⟨rB, sB1⟩
      dsimp only
      have hh := H a rfl b h axL layL d maxD f s
      rw [hA1, hB1] at hh
      dsimp only at hh
      exact hh



theorem buildEnhancedTree_pwOK : ∀ n, PwOK n := by
  apply CDPDOMNode.inductionOn
  intro bid nt nn ln attrs ch sh cd ihch ihsh ihcd
  intro m hm axL layL d maxD f s
  rcases m with ⟨bidB, ntB, nnB, lnB, aB, chB, shB, cdB⟩
  obtain ⟨hbid, hnt, hnn, hln, hattrs, hch, hsh, hcd⟩ := pwEquivN_parts hm
  subst hbid; subst hnt; subst hnn; subst hln
  rw [buildEnhancedTree_mk, buildEnhancedTree_mk]
  by_cases hd : d > maxD
  · rw [if_pos hd, if_pos hd]; exact ⟨rfl, rfl⟩
  rw [if_neg hd, if_neg hd]
  by_cases hnt1 : nt ≠ 1
  · rw [if_pos hnt1, if_pos hnt1]; exact ⟨rfl, rfl⟩
  rw [if_neg hnt1, if_neg hnt1]
  dsimp only
  rw [computeFacets_tag bid nn ln attrs axL layL, computeFacets_tag bid nn ln aB axL layL]
  by_cases hskip : SKIP_TAGS.contains (tagOf ln nn) = true
  · rw [if_pos hskip, if_pos hskip]; exact ⟨rfl, rfl⟩
  rw [if_neg hskip, if_neg hskip]
  have hint := computeFacets_interactive_congr bid nn ln attrs aB axL layL hattrs
  rw [← hint]
  by_cases hsplice :
      (f == FilterMode.interactive && !(computeFacets bid nn ln attrs axL layL).interactive)
        = true
  · rw [if_pos hsplice, if_pos hsplice]
    rcases h1A : buildChildList ch axL layL d maxD f s with ⟨r1A, s1A⟩
    rcases h1B : buildChildList chB axL layL d maxD f s with ⟨r1B, s1B⟩
    dsimp only
    have e1 := buildChildList_pwOK axL layL d maxD f ch chB hch ihch s
    rw [h1A, h1B] at e1
    dsimp only at e1
    rcases h2A : buildShadowList sh axL layL d maxD f s1A with ⟨r2A, s2A⟩
    rcases h2B : buildShadowList shB axL layL d maxD f s1B with ⟨r2B, s2B⟩
    dsimp only
    rw [← e1.2] at h2B
    have e2 := buildShadowList_pwOK axL layL d maxD f sh shB hsh ihsh s1A
    rw [h2A, h2B] at e2
    dsimp only at e2
    rcases h3A : buildContentDoc cd axL layL d maxD f s2A with ⟨r3A, s3A⟩
    rcases h3B : buildContentDoc cdB axL layL d maxD f s2B with ⟨r3B, s3B⟩
    dsimp only
    rw [← e2.2] at h3B
    have e3 := buildContentDoc_pwOK axL layL d maxD f cd cdB hcd ihcd s2A
    rw [h3A, h3B] at e3
    dsimp only at e3
    constructor
    · rw [spliceResult_toList, spliceResult_toList, toElementRefList_append,
        toElementRefList_append, toElementRefList_append, toElementRefList_append,
        e1.1, e2.1, e3.1]
    · rw [spliceResult_snd, spliceResult_snd]
      exact e3.2
  · rw [if_neg hsplice, if_neg hsplice]
    rcases hAr : assignRef bid s with ⟨ref, s1⟩
    dsimp only
    by_cases hlt : d < maxD
    · rw [if_pos hlt, if_pos hlt]
      rcases h1A : buildChildList ch axL layL (d + 1) maxD f s1 with ⟨r1A, s1A⟩
      rcases h1B : buildChildList chB axL layL (d + 1) maxD f s1 with ⟨r1B, s1B⟩
      dsimp only
      have e1 := buildChildList_pwOK axL layL (d + 1) maxD f ch chB hch ihch s1
      rw [h1A, h1B] at e1
      dsimp only at e1
      rcases h2A : buildShadowList sh axL layL (d + 1) maxD f s1A with ⟨r2A, s2A⟩
      rcases h2B : buildShadowList shB axL layL (d + 1) maxD f s1B with ⟨r2B, s2B⟩
      dsimp only
      rw [← e1.2] at h2B
      have e2 := buildShadowList_pwOK axL layL (d + 1) maxD f sh shB hsh ihsh s1A
      rw [h2A, h2B] at e2
      dsimp only at e2
      rcases h3A : buildContentDoc cd axL layL (d + 1) maxD f s2A with ⟨r3A, s3A⟩
      rcases h3B : buildContentDoc cdB axL layL (d + 1) maxD f s2B with ⟨r3B, s3B⟩
      dsimp only
      rw [← e2.2] at h3B
      have e3 := buildContentDoc_pwOK axL layL (d + 1) maxD f cd cdB hcd ihcd s2A
      rw [h3A, h3B] at e3
      dsimp only at e3
      constructor
      · simp only [BuildResult.toList, toElementRefList_cons, toElementRefList_nil,
          toElementRef_mk]
        rw [toERData_mkEEData_congr bid nt nn ln attrs aB axL layL ref hattrs,
          toElementRefList_append, toElementRefList_append, toElementRefList_append,
          toElementRefList_append, e1.1, e2.1, e3.1]
      · exact e3.2
    · rw [if_neg hlt, if_neg hlt]
      constructor
      · simp only [BuildResult.toList, toElementRefList_cons, toElementRefList_nil,
          toElementRef_mk]
        rw [toERData_mkEEData_congr bid nt nn ln attrs aB axL layL ref hattrs]
      · rfl



/-- C10 (amended): the merged element's `value` field is suppressed for
password inputs (and stays absent after serialization), and the serialized
output together with the final registry state is invariant under changing
password values; the original claim's "identical merged outputs" fails at the
`EnhancedElement` layer because the raw attribute record still carries the
password value. -/
theorem C10_password_value :
    (∀ (fetchResult : TreeFetchResult) (options : MergeOptions) (vw vh : Int) (s : RegState),
      ∀ dd ∈ (mergeToEnhancedTree fetchResult options vw vh s).1.flatten,
        dd.inputType = some "password" → dd.value = none ∧ (toERData dd).value = none) ∧
    (∀ (domA domB : CDPDOMNode) (snap : CDPSnapshot)
        (ax : List (String × List CDPAXNode)) (ft : CDPFrameTree)
        (options : MergeOptions) (vw vh : Int) (s : RegState),
      pwEquivN domA domB = true →
      toElementRefList
          (mergeToEnhancedTree ⟨domA, snap, ax, ft⟩ options vw vh s).1.toList =
        toElementRefList
          (mergeToEnhancedTree ⟨domB, snap, ax, ft⟩ options vw vh s).1.toList ∧
      (mergeToEnhancedTree ⟨domA, snap, ax, ft⟩ options vw vh s).2 =
        (mergeToEnhancedTree ⟨domB, snap, ax, ft⟩ options vw vh s).2) := by
  constructor
  · intro fetchResult options vw vh s dd hdd hty
    simp only [mergeToEnhancedTree] at hdd
    have h := buildEnhancedTree_fields (resolveBody fetchResult.dom)
      (buildAXLookup fetchResult.axTrees)
      (buildLayoutLookup fetchResult.snapshot vw vh) 0 options.depth options.filter
      (if options.clearRefsFirst then clearRefs else s) dd hdd
    have hv := h.2.2.2 hty
    exact ⟨hv, by simp [toERData, hv, strTruthy]⟩
  · intro domA domB snap ax ft options vw vh s h
    simp only [mergeToEnhancedTree]
    exact buildEnhancedTree_pwOK (resolveBody domA) (resolveBody domB)
      (pwEquiv_resolveBody h) (buildAXLookup ax) (buildLayoutLookup snap vw vh)
      0 options.depth options.filter (if options.clearRefsFirst then clearRefs else s)

/-- C10 counterexample: two password inputs differing only in the `value`
attribute are pw-equivalent, yet the merged `EnhancedElement` trees are not
identical — the raw attribute records still carry the two different password
values — refuting the claimed identity of the merged outputs. -/
theorem C10_counterexample :
    pwEquivN
      (CDPDOMNode.mk 1 1 "INPUT" "input"
        (some ["type", "password", "value", "secretA"]) [] [] none)
      (CDPDOMNode.mk 1 1 "INPUT" "input"
        (some ["type", "password", "value", "secretB"]) [] [] none) = true ∧
    ((mergeToEnhancedTree
      { dom := CDPDOMNode.mk 1 1 "INPUT" "input"
          (some ["type", "password", "value", "secretA"]) [] [] none,
        snapshot := { documents := [], strings := [] }, axTrees := [],
        frameTree := .mk "" [] }
      { depth := 15, filter := .all, clearRefsFirst := true } 0 0 clearRefs).1.flatten.map
        (fun dd => alGet dd.attributes "value")) = [some "secretA"] ∧
    ((mergeToEnhancedTree
      { dom := CDPDOMNode.mk 1 1 "INPUT" "input"
          (some ["type", "password", "value", "secretB"]) [] [] none,
        snapshot := { documents := [], strings := [] }, axTrees := [],
        frameTree := .mk "" [] }
      { depth := 15, filter := .all, clearRefsFirst := true } 0 0 clearRefs).1.flatten.map
        (fun dd => alGet dd.attributes "value")) = [some "secretB"] :=
  ⟨by decide, by decide, by decide⟩

end Bouno
